import Mathlib

/-!
Verification of the VBA_descartes tariff ETL pipeline (a Python/pandas port of a
VBA workbook).  This file gives a shallow embedding of the claim-relevant parts
of `src/process.py`, `src/export.py` and `src/config.py`:

* Python strings are modelled as Lean `String`; character-level operations work
  on `String.data : List Char`, which matches Python's code-point semantics.
* A pandas `DataFrame` is modelled as a `List` of records, one structure per
  table shape; a column that may be absent in a given run is modelled by the
  value the code itself substitutes for it (`flag_hs` creates missing sort
  columns filled with the empty string, so a missing column and an all-empty
  column are indistinguishable to the flagging engine).
* `NaN` cells are modelled by `Option` where the code branches on `pd.isna`,
  and by `""` where `NaN` and `""` are treated identically by the code.
* Numeric rate cells (floats in pandas) are modelled as `Option ℚ`
  (`none` = `NaN`).
* `df.sort_values` with a list of keys uses a lexicographic, stable sort
  (numpy `lexsort`); it is modelled by `List.insertionSort`, which is stable.
-/

namespace Descartes

/-! ### Character/string primitives

Python's string comparison is lexicographic on code points.  Mathlib's
`String` order is not kernel-reducible, so we define a three-way comparison
on `List Char` and derive everything from it. -/

/-- Three-way lexicographic comparison of code-point sequences, the order
Python uses to compare strings. -/
def charsCmp : List Char → List Char → Ordering
  | [], [] => .eq
  | [], _ :: _ => .lt
  | _ :: _, [] => .gt
  | a :: as, b :: bs => if a < b then .lt else if b < a then .gt else charsCmp as bs

/-- `a <= b` on Python strings. -/
def charsLe (a b : List Char) : Bool := charsCmp a b ≠ Ordering.gt

/-- `replace_chars` (process.py:8): replace each `;` by `.` so free text cannot
break the semicolon-delimited CSV output.  The `pd.isna` branch maps `NaN` to
`""`; string inputs reach the `str.replace` path modelled here. -/
def replaceChars (s : String) : String :=
  ⟨s.data.map (fun c => if c = ';' then '.' else c)⟩

/-- The per-value transform of `cleanse_hs` (process.py:14): strip a leading
`"00"` artifact prefix once; other values pass through unchanged.
`x.startswith('00')` is rendered as `take 2 = ['0','0']` and `x[2:]` as
`drop 2`. -/
def cleanseVal (s : String) : String :=
  if s.data.take 2 = ['0', '0'] then ⟨s.data.drop 2⟩ else s

/-- `cleanse_hs` applies `cleanseVal` to every value of the `hs` (resp.
`number`) column. -/
def cleanseHs (col : List String) : List String := col.map cleanseVal

/-! ### Flagging engine (`flag_hs`, process.py:79)

A row of the table handed to `flag_hs`.  The DTR tables carry
`country_group`/`hs`/dates/rate columns; the NOM tables carry
`version_number` and (after the in-function column mapping
`validity_begin → valid_from`, `validity_end → valid_to`,
`date_of_physical_update → version_date`) the same date columns.  `flag_hs`
creates every missing sort column filled with `""`, so a single structure
with all columns, defaulting to `""`, models every table shape the function
receives; `extra` stands for the remaining pass-through columns
(`regulation`, descriptions, ...) that never influence flagging. -/
structure FlagRow where
  country_group : String := ""
  version_number : String := ""
  hs : String := ""
  version_date : String := ""
  valid_from : String := ""
  valid_to : String := ""
  adValoremRate_percentage : String := ""
  specificRate_ratePerUOM : String := ""
  compoundRate_percentage : String := ""
  extra : String := ""
  deriving DecidableEq, Repr

/-- The three flagging configurations of `flag_hs`: `doc_type="DTR"`,
`doc_type="NOM"` with `is_export=False`, and `doc_type="NOM"` with
`is_export=True`.  (Any other `doc_type` returns the table untouched and is
not part of the engine.) -/
inductive FlagMode
  | dtr
  | nomImport
  | nomExport
  deriving DecidableEq, Repr

/-- A multi-key sort specification: the `sort_cols`/`ascending` pair of
lists of `flag_hs`, one `(column, ascending?)` entry per key. -/
abbrev SortSpec := List ((FlagRow → String) × Bool)

/-- Comparison of two rows on one sort key: the column values compared in
the given direction (a descending column compares the arguments swapped). -/
def headCmp (p : (FlagRow → String) × Bool) (x y : FlagRow) : Ordering :=
  if p.2 then charsCmp (p.1 x).data (p.1 y).data else charsCmp (p.1 y).data (p.1 x).data

/-- Lexicographic comparison over a sort specification, key priority in
list order. -/
def cmpBySpec : SortSpec → FlagRow → FlagRow → Ordering
  | [], _, _ => .eq
  | p :: rest, x, y => (headCmp p x y).then (cmpBySpec rest x y)

/-- DTR `sort_cols`/`ascending` (process.py:100-108): `country_group` asc,
`hs` asc, `version_date` desc, `valid_from` desc, `valid_to` asc, then the
three rate columns desc. -/
def dtrSortSpec : SortSpec :=
  [(FlagRow.country_group, true), (FlagRow.hs, true), (FlagRow.version_date, false),
    (FlagRow.valid_from, false), (FlagRow.valid_to, true),
    (FlagRow.adValoremRate_percentage, false), (FlagRow.specificRate_ratePerUOM, false),
    (FlagRow.compoundRate_percentage, false)]

/-- NOM import `sort_cols`/`ascending` (process.py:123-124):
`version_number` asc, `hs` asc, `version_date` desc, `valid_from` desc,
`valid_to` asc. -/
def nomImportSortSpec : SortSpec :=
  [(FlagRow.version_number, true), (FlagRow.hs, true), (FlagRow.version_date, false),
    (FlagRow.valid_from, false), (FlagRow.valid_to, true)]

/-- NOM export `sort_cols`/`ascending` (process.py:118-119): `hs` asc,
`version_date` desc, `valid_from` desc, `valid_to` asc. -/
def nomExportSortSpec : SortSpec :=
  [(FlagRow.hs, true), (FlagRow.version_date, false),
    (FlagRow.valid_from, false), (FlagRow.valid_to, true)]

/-- The sort specification of each flagging mode. -/
def modeSpec : FlagMode → SortSpec
  | .dtr => dtrSortSpec
  | .nomImport => nomImportSortSpec
  | .nomExport => nomExportSortSpec

/-- DTR sort comparator. -/
def cmpDtr : FlagRow → FlagRow → Ordering := cmpBySpec dtrSortSpec

/-- NOM import sort comparator. -/
def cmpNomImport : FlagRow → FlagRow → Ordering := cmpBySpec nomImportSortSpec

/-- NOM export sort comparator. -/
def cmpNomExport : FlagRow → FlagRow → Ordering := cmpBySpec nomExportSortSpec

/-- `df.sort_values(by=sort_cols, ascending=...)`: a stable lexicographic
sort (numpy `lexsort`), modelled by the stable `List.insertionSort`. -/
def sortRows (cmp : FlagRow → FlagRow → Ordering) (rows : List FlagRow) : List FlagRow :=
  List.insertionSort (fun a b => cmp a b ≠ Ordering.gt) rows

/-- The deduplication subset of `df.duplicated(subset=subset_cols)`
(process.py:162-166): `(country_group, hs)` for DTR, `(version_number, hs)`
for NOM import, and `hs` alone (padded to a pair) for NOM export. -/
def dedupKey : FlagMode → FlagRow → String × String
  | .dtr, r => (r.country_group, r.hs)
  | .nomImport, r => (r.version_number, r.hs)
  | .nomExport, r => ("", r.hs)

/-- `df.duplicated(subset=..., keep='first')` on the sorted table: a row is
marked a duplicate exactly when an earlier row carries the same key.  `seen`
accumulates the keys already passed. -/
def markDups (dkey : FlagRow → String × String) :
    List (String × String) → List FlagRow → List (FlagRow × Bool)
  | _, [] => []
  | seen, r :: rs => (r, decide (dkey r ∈ seen)) :: markDups dkey (dkey r :: seen) rs

/-- `determine_flag` (process.py:168-184): duplicates get `03-duplicate`;
otherwise the first 4 characters of `valid_to` are compared, as strings,
against the configured year: `>=` gives `01-active`, `<` gives `02-invalid`,
and a `valid_to` shorter than 4 characters gives `02-invalid`. -/
def determineFlag (year : String) (isDup : Bool) (r : FlagRow) : String :=
  if isDup then "03-duplicate"
  else if 4 ≤ r.valid_to.data.length then
    if charsLe year.data (r.valid_to.data.take 4) then "01-active" else "02-invalid"
  else "02-invalid"

/-- The flagging pipeline for one sort comparator and dedup key: stable
sort, mark duplicates first-wins, then assign the flag per row.  The result
is the sorted table paired with its `hs_flag` column (as `flag_hs` returns
the data sorted). -/
def flagWith (cmp : FlagRow → FlagRow → Ordering) (dkey : FlagRow → String × String)
    (year : String) (rows : List FlagRow) : List (FlagRow × String) :=
  (markDups dkey [] (sortRows cmp rows)).map (fun p => (p.1, determineFlag year p.2 p.1))

/-- `flag_hs(df, config, doc_type, is_export)` (process.py:79-189), the
`year` argument standing for `config.year`. -/
def flagHs : FlagMode → String → List FlagRow → List (FlagRow × String)
  | .dtr, year, rows => flagWith cmpDtr (dedupKey .dtr) year rows
  | .nomImport, year, rows => flagWith cmpNomImport (dedupKey .nomImport) year rows
  | .nomExport, year, rows => flagWith cmpNomExport (dedupKey .nomExport) year rows

/-- Equality of all the sort-key columns of the given mode: the relation
under which the stable sort cannot separate two rows. -/
def sortKeysEq (mode : FlagMode) (a b : FlagRow) : Prop :=
  match mode with
  | .dtr =>
      a.country_group = b.country_group ∧ a.hs = b.hs ∧ a.version_date = b.version_date ∧
        a.valid_from = b.valid_from ∧ a.valid_to = b.valid_to ∧
        a.adValoremRate_percentage = b.adValoremRate_percentage ∧
        a.specificRate_ratePerUOM = b.specificRate_ratePerUOM ∧
        a.compoundRate_percentage = b.compoundRate_percentage
  | .nomImport =>
      a.version_number = b.version_number ∧ a.hs = b.hs ∧ a.version_date = b.version_date ∧
        a.valid_from = b.valid_from ∧ a.valid_to = b.valid_to
  | .nomExport =>
      a.hs = b.hs ∧ a.version_date = b.version_date ∧
        a.valid_from = b.valid_from ∧ a.valid_to = b.valid_to

/-! ### Description builder (`build_descriptions`, process.py:191) -/

/-- A nomenclature record as seen by `build_descriptions`: `id` and
`parent_id` are `None`-able (`pd.isna` branches in the code),
`official_description` and `level_id` reach the code as strings (a missing
description sanitizes to `""`, which is also how the model renders it). -/
structure NomRow where
  id : Option String := none
  parent_id : Option String := none
  official_description : String := ""
  level_id : String := ""
  deriving DecidableEq, Repr

/-- One entry of the `data_map` dictionary (process.py:213-217). -/
structure NomItem where
  pid : Option String
  desc : String
  lvl : String
  deriving DecidableEq, Repr

/-- `data_map`: id → (parent id, sanitized description, level), built from all
records; rows without an id are skipped, and a later row with the same id
overwrites an earlier one (Python dict assignment).  The fold conses the
latest entry to the front, so `List.lookup` returns the overwriting value. -/
def dataMap (rows : List NomRow) : List (String × NomItem) :=
  rows.foldl
    (fun m r =>
      match r.id with
      | some rid => (rid, ⟨r.parent_id, replaceChars r.official_description, r.level_id⟩) :: m
      | none => m)
    []

/-- `get_full_desc(curr_id, depth)` (process.py:222-256) with the shared
`full_desc_cache` threaded explicitly.  The `depth > 20` recursion cap is
rendered as fuel `21 - depth`: a call at depth `d` has fuel `21 - d`, and
fuel `0` is the `depth > 20` early return of `""`.  The cache is an
association list whose most recent binding shadows older ones, matching
dict overwrite. -/
def getFullDesc (dm : List (String × NomItem)) :
    ℕ → String → List (String × String) → String × List (String × String)
  | 0, _, cache => ("", cache)
  | fuel + 1, currId, cache =>
    match dm.lookup currId with
    | none => ("", cache)
    | some item =>
      match cache.lookup currId with
      | some v => (v, cache)
      | none =>
        if item.lvl = "10" then (item.desc, (currId, item.desc) :: cache)
        else
          match item.pid with
          | some pid =>
            if pid ≠ "" ∧ pid ≠ currId then
              let res := getFullDesc dm fuel pid cache
              let full := if res.1 ≠ "" then res.1 ++ "---" ++ item.desc else item.desc
              (full, (currId, full) :: res.2)
            else (item.desc, (currId, item.desc) :: cache)
          | none => (item.desc, (currId, item.desc) :: cache)

/-- The per-row loop of `build_descriptions` (process.py:259-266): rows with
a known id resolve through `get_full_desc` (threading the memo cache), rows
without one fall back to their own sanitized description. -/
def buildLoop (dm : List (String × NomItem)) :
    List NomRow → List (String × String) → List (NomRow × String)
  | [], _ => []
  | r :: rs, cache =>
    match r.id with
    | some rid =>
      if (dm.lookup rid).isSome then
        let res := getFullDesc dm 21 rid cache
        (r, res.1) :: buildLoop dm rs res.2
      else (r, replaceChars r.official_description) :: buildLoop dm rs cache
    | none => (r, replaceChars r.official_description) :: buildLoop dm rs cache

/-- `build_descriptions(nom_df)`: each record paired with its
`full_description`. -/
def buildDescriptions (rows : List NomRow) : List (NomRow × String) :=
  buildLoop (dataMap rows) rows []

/-! ### Configuration (`config.py`) -/

/-- One row of the `rate_types` table of a country configuration
("Descartes CG" / "Comment" / "Description"). -/
structure RateTypeDef where
  descartes_cg : String
  comment : String
  description : String
  deriving DecidableEq, Repr

/-- `AppConfig` (config.py:12-26).  `zd14_date` is a JSON value whose Python
truthiness gates the ZD14 date filter; `""` models an unset (`None`/empty)
value. -/
structure AppConfig where
  country : String
  year : String
  min_chapter : ℕ
  max_csv : ℕ
  zd14_date : String := ""
  rate_type_defs : List RateTypeDef := []
  uom_dict : List (String × String) := []
  country_list : List String := []
  chapter_list : List String := []
  active_country_group_list : List String := []
  all_country_group_list : List String := []
  main_country_group : String := ""
  main_country_group_description : String := ""
  deriving DecidableEq, Repr

/-- The value of `config.main_cg if hasattr(config, 'main_cg') else ''` used
by every output generator (export.py:72,179,216,251,355).  `AppConfig`
declares `main_country_group` but never an attribute named `main_cg`, so the
`hasattr` guard is always false and the generators work with the empty
string regardless of the configured main country group. -/
def configMainCg (_ : AppConfig) : String := ""

/-! ### Output generators (`export.py`)

Numeric rate cells are modelled as `Option ℚ` (`none` = `NaN`); rationals
stand in for floats.  A pandas left merge tags the left table with a
positional `Index` column, joins, and stably re-sorts on `Index`
(export.py:87-99), which restores the left row order; the composite is
modelled as an order-preserving left join (`flatMap` over the left rows).
The relative order of several matches of one left row is not observable in
any claim below. -/

/-- A DTR row as consumed by the output generators (post flagging/filtering,
numeric view of the rate columns). -/
structure GenRow where
  hs : String := ""
  country_group : String := ""
  duty_rate_type : String := ""
  valid_from : String := ""
  valid_to : String := ""
  regulation : String := ""
  specificRate_rateUOM : String := ""
  adValoremRate_percentage : Option ℚ := none
  specificRate_ratePerUOM : Option ℚ := none
  specificRate_multiplier : Option ℚ := none
  deriving DecidableEq, Repr

/-- The NOM columns the generators join in
(`nom_df[['number', 'full_description', 'alternate_unit_1', ...]]`). -/
structure NomJoinRow where
  number : String := ""
  full_description : String := ""
  alternate_unit_1 : String := ""
  alternate_unit_2 : String := ""
  deriving DecidableEq, Repr

/-- `int(s)` on the digit-only strings the pipeline produces (year prefixes
and `YYYYMMDD` dates); a non-digit or empty string raises, modelled as
`none`.  (Sign/whitespace forms never occur here and are outside the
model.) -/
def pyInt (s : String) : Option ℕ :=
  if s.data ≠ [] ∧ s.data.all Char.isDigit then
    some (s.data.foldl (fun n c => n * 10 + (c.toNat - 48)) 0)
  else none

/-- `str(d).replace("-", "").replace(" ", "")`. -/
def stripDashSpace (s : String) : String :=
  ⟨s.data.filter (fun c => c ≠ '-' ∧ c ≠ ' ')⟩

/-- `format_rate` (export.py:9-21) at its default `decimal_places=1`:
`NaN`/empty/zero give `"0"`; otherwise format with one decimal and strip a
trailing `.0`.  Rounding of the rational stands in for float formatting
(no claim depends on a rounded value). -/
def formatRate (v : Option ℚ) : String :=
  match v with
  | none => "0"
  | some q =>
    if q = 0 then "0"
    else
      let n : ℤ := round (q * 10)
      if n % 10 = 0 then toString (n / 10)
      else toString (n / 10) ++ "." ++ toString (n % 10).natAbs

/-- `format_date_from` (export.py:23-34): empty gives `""`; otherwise strip
`-`/` `, keep 8 characters, and clamp an integer value below the year start
up to the year start; an unparseable value passes through. -/
def formatDateFrom (d : String) (yearStartInt : ℕ) : String :=
  if d = "" then ""
  else
    let s : String := ⟨(stripDashSpace d).data.take 8⟩
    match pyInt s with
    | some n => if n < yearStartInt then toString yearStartInt else toString n
    | none => s

/-- `format_date_to` (export.py:36-48): like `formatDateFrom` but an integer
value whose decimal form starts with `9999` is normalized to `99991231`. -/
def formatDateTo (d : String) : String :=
  if d = "" then ""
  else
    let s : String := ⟨(stripDashSpace d).data.take 8⟩
    match pyInt s with
    | some n => if (toString n).data.take 4 = ['9', '9', '9', '9'] then "99991231" else toString n
    | none => s

/-- `map_uom` (export.py:104-108): `NaN` (`none`) and `""` give `""`;
otherwise look the unit up in `config.uom_dict`, defaulting to the source
value. -/
def mapUom (cfg : AppConfig) (u : Option String) : String :=
  match u with
  | none => ""
  | some s => if s = "" then "" else match cfg.uom_dict.lookup s with
    | some v => v
    | none => s

/-- One left row joined against the NOM side: every match in table order, or
a single `none` (`NaN`-filled) pairing if nothing matches — the row
multiplicity of `pd.merge(..., how='left')`. -/
def joinNom (nom : List NomJoinRow) (h : String) : List (Option NomJoinRow) :=
  match nom.filter (fun nr => nr.number == h) with
  | [] => [none]
  | ms => ms.map some

/-- The ZD14 output schema (export.py:110-144), fields in column order:
Country, HS Number, Date from, Date to, Lang 1, Desc 1-7, Lang 2,
Desc 21-27, Unit of measure, Restriction code, Rate type, Champ24, Champ25,
Base rate %, Rate amount, Rate curr, Rate qty, Rate qty uom, Spec App,
Cert Ori, Cty Grp. -/
structure Zd14Row where
  country : String
  hs_number : String
  date_from : String
  date_to : String
  lang_1 : String
  desc_1 : String
  desc_2 : String
  desc_3 : String
  desc_4 : String
  desc_5 : String
  desc_6 : String
  desc_7 : String
  lang_2 : String
  desc_21 : String
  desc_22 : String
  desc_23 : String
  desc_24 : String
  desc_25 : String
  desc_26 : String
  desc_27 : String
  unit_of_measure : String
  restriction_code : String
  rate_type : String
  champ24 : String
  champ25 : String
  base_rate_pct : String
  rate_amount : String
  rate_curr : String
  rate_qty : String
  rate_qty_uom : String
  spec_app : String
  cert_ori : String
  cty_grp : String
  deriving DecidableEq, Repr

/-- First synthetic header row of ZD14 (export.py:75-78): HS `"--"`, the
(empty, see `configMainCg`) main country group, zero rates, validity from
the configured year start to `99991231`.  The `duty_rate_type` column is
absent from the literal dict (`NaN`), rendered `""`. -/
def zd14Header1 (cfg : AppConfig) : GenRow :=
  { hs := "--", country_group := configMainCg cfg, valid_from := cfg.year ++ "0101",
    valid_to := "99991231", adValoremRate_percentage := some 0,
    specificRate_ratePerUOM := some 0, specificRate_multiplier := none }

/-- Second synthetic header row of ZD14 (export.py:79-81): HS
`"0000000000"`, otherwise as `zd14Header1`. -/
def zd14Header2 (cfg : AppConfig) : GenRow :=
  { zd14Header1 cfg with hs := "0000000000" }

/-- `pd.to_datetime` coercion for the ISO (`YYYY-MM-DD` or `YYYYMMDD`) date
strings this pipeline carries: the digit value if well-formed, else `NaT`
(`none`). -/
def pdTs (s : String) : Option ℕ :=
  let t := (stripDashSpace s).data
  if t.length = 8 ∧ t.all Char.isDigit then pyInt ⟨t⟩ else none

/-- The ZD14 date filter (export.py:66-69): active only when `zd14_date` is
truthy; keeps rows with `to_datetime(valid_from) >= to_datetime(zd14_date)`
(`NaT` comparisons are false). -/
def zd14DateFilter (cfg : AppConfig) (dtr : List GenRow) : List GenRow :=
  if cfg.zd14_date ≠ "" then
    dtr.filter (fun r =>
      match pdTs r.valid_from, pdTs cfg.zd14_date with
      | some a, some b => decide (b ≤ a)
      | _, _ => false)
  else dtr

/-- Assembly of one ZD14 output row from a joined (DTR, NOM?) pair
(export.py:110-152).  The Brazil special case blanks the Rate amount column
and the US special case rewrites a `Unit of measure` cell equal to `T` to
`TO`; both whole-column edits are per-cell and modelled in place. -/
def zd14RowOf (cfg : AppConfig) (ysi : ℕ) (pr : GenRow × Option NomJoinRow) : Zd14Row :=
  let r := pr.1
  let desc := match pr.2 with
    | some nr => nr.full_description
    | none => ""
  let uom0 := mapUom cfg (pr.2.map (fun nr => nr.alternate_unit_1))
  let uom := if cfg.country = "US" ∧ uom0 = "T" then "TO" else uom0
  { country := cfg.country
    hs_number := r.hs
    date_from := formatDateFrom r.valid_from ysi
    date_to := formatDateTo r.valid_to
    lang_1 := "EN"
    desc_1 := desc, desc_2 := "", desc_3 := "", desc_4 := "", desc_5 := "", desc_6 := ""
    desc_7 := ""
    lang_2 := "ES"
    desc_21 := desc, desc_22 := "", desc_23 := "", desc_24 := "", desc_25 := "", desc_26 := ""
    desc_27 := ""
    unit_of_measure := uom
    restriction_code := ""
    rate_type := r.country_group
    champ24 := formatDateFrom r.valid_from ysi
    champ25 := formatDateTo r.valid_to
    base_rate_pct := formatRate r.adValoremRate_percentage
    rate_amount := if cfg.country = "BR" then "" else formatRate r.specificRate_ratePerUOM
    rate_curr := "", rate_qty := "", rate_qty_uom := "", spec_app := ""
    cert_ori := r.regulation
    cty_grp := "" }

/-- The merge-and-build tail of `generate_zd14`: order-preserving left join
of the given (header + filtered) DTR rows against NOM, then per-row column
assembly. -/
def zd14Rows (cfg : AppConfig) (ysi : ℕ) (nom : List NomJoinRow) (rows : List GenRow) :
    List Zd14Row :=
  (rows.flatMap (fun r => (joinNom nom r.hs).map (fun p => (r, p)))).map (zd14RowOf cfg ysi)

/-- `generate_zd14` (export.py:50-156).  An empty DTR input returns an empty
table.  `int(f"{config.year}0101")` raising (non-numeric year) and the
`pd.merge` `KeyError` on an empty (hence column-less) NOM frame are the two
exception paths, modelled as `none`. -/
def generateZd14 (dtr : List GenRow) (nom : List NomJoinRow) (cfg : AppConfig) :
    Option (List Zd14Row) :=
  if dtr.isEmpty then some []
  else if nom.isEmpty then none
  else
    match pyInt (cfg.year ++ "0101") with
    | none => none
    | some ysi =>
      some (zd14Rows cfg ysi nom (zd14Header1 cfg :: zd14Header2 cfg :: zd14DateFilter cfg dtr))

/-- `generate_capdr` (export.py:158-192): only for `CA`; start from ZD14,
keep the rows whose Rate type equals the (empty, see `configMainCg`) main
country group, drop the `--`/`0000000000` header rows, then overwrite Rate
type with `PDR`. -/
def generateCapdr (dtr : List GenRow) (nom : List NomJoinRow) (cfg : AppConfig) :
    Option (List Zd14Row) :=
  if cfg.country ≠ "CA" then some []
  else
    match generateZd14 dtr nom cfg with
    | none => none
    | some z =>
      if z.isEmpty then some []
      else
        some (((z.filter (fun row => row.rate_type == configMainCg cfg)).filter
            (fun row => row.hs_number != "--" && row.hs_number != "0000000000")).map
          (fun row => { row with rate_type := "PDR" }))

/-- `df.drop_duplicates(subset=['HS Number'], keep='first')`. -/
def dedupByHs : List String → List Zd14Row → List Zd14Row
  | _, [] => []
  | seen, r :: rs =>
    if r.hs_number ∈ seen then dedupByHs seen rs
    else r :: dedupByHs (r.hs_number :: seen) rs

/-- `generate_mx6digits` (export.py:194-229): only for `MX`; start from
ZD14, keep the rows of the (empty) main country group, drop `--`, truncate
HS to six characters, and deduplicate keep-first on the truncated code. -/
def generateMx6digits (dtr : List GenRow) (nom : List NomJoinRow) (cfg : AppConfig) :
    Option (List Zd14Row) :=
  if cfg.country ≠ "MX" then some []
  else
    match generateZd14 dtr nom cfg with
    | none => none
    | some z =>
      if z.isEmpty then some []
      else
        some (dedupByHs []
          ((z.filter (fun row => row.rate_type == configMainCg cfg && row.hs_number != "--")).map
            (fun row => { row with hs_number := ⟨row.hs_number.data.take 6⟩ })))

/-- The intermediate shape `generate_zzde`/`generate_zzdf` build before
their join: the HS code, the two rate values (the second divided by the
multiplier) and the rate unit. -/
structure RateSrc where
  hs : String
  ad_val : Option ℚ
  amt : Option ℚ
  rate_uom : String
  deriving DecidableEq, Repr

/-- `ratePerUOM / multiplier` on pandas series: `NaN` stays `NaN`.  (A zero
multiplier yields a float infinity in pandas; rationals render it as `0`,
a corner no claim touches.) -/
def pdDivide (a : Option ℚ) (m : ℚ) : Option ℚ := a.map (fun q => q / m)

/-- The ZZDE output schema (export.py:282-330), fields in column order. -/
structure ZzdeRow where
  cl : ℕ
  year : String
  can_hs_no : String
  mfn_pct : String
  mfn_amt : String
  gpt_pct : ℕ
  gpt_amt : ℕ
  ust_pct : ℕ
  ust_amt : ℕ
  mex_pct : ℕ
  mex_amt : ℕ
  oth_pct : ℕ
  oth_amt : ℕ
  oth2_pct : ℕ
  oth2_amt : ℕ
  oth3_pct : ℕ
  oth3_amt : ℕ
  c2450_pct : ℕ
  c2450_amt : ℕ
  c2460_pct : ℕ
  c2460_amt : ℕ
  c2475_pct : ℕ
  c2475_amt : ℕ
  free_pct : ℕ
  free_amt : ℕ
  oth4_pct : ℕ
  oth4_amt : ℕ
  oth5_pct : ℕ
  oth5_amt : ℕ
  oth6_pct : ℕ
  oth6_amt : ℕ
  oth7_pct : ℕ
  oth7_amt : ℕ
  oth8_pct : ℕ
  oth8_amt : ℕ
  uom_pct : String
  uom_amt : String
  stat_uom : String
  stat1_uom : String
  stat1_qty : ℕ
  stat2_uom : String
  stat2_qty : ℕ
  mex_us_pct : ℕ
  mex_us_amt : ℕ
  rest_cd : String
  date_from : String
  date_to : String
  deriving DecidableEq, Repr

/-- Assembly of one ZZDE row (export.py:282-330). -/
def zzdeRowOf (cfg : AppConfig) (pr : RateSrc × Option NomJoinRow) : ZzdeRow :=
  let s := pr.1
  let statUom := match pr.2 with
    | some nr => nr.alternate_unit_1
    | none => ""
  { cl := 10, year := cfg.year, can_hs_no := s.hs
    mfn_pct := formatRate s.ad_val, mfn_amt := formatRate s.amt
    gpt_pct := 0, gpt_amt := 0, ust_pct := 0, ust_amt := 0, mex_pct := 0, mex_amt := 0
    oth_pct := 0, oth_amt := 0, oth2_pct := 0, oth2_amt := 0, oth3_pct := 0, oth3_amt := 0
    c2450_pct := 0, c2450_amt := 0, c2460_pct := 0, c2460_amt := 0, c2475_pct := 0
    c2475_amt := 0, free_pct := 0, free_amt := 0
    oth4_pct := 0, oth4_amt := 0, oth5_pct := 0, oth5_amt := 0, oth6_pct := 0, oth6_amt := 0
    oth7_pct := 0, oth7_amt := 0, oth8_pct := 0, oth8_amt := 0
    uom_pct := "", uom_amt := s.rate_uom, stat_uom := statUom
    stat1_uom := "", stat1_qty := 0, stat2_uom := "", stat2_qty := 0
    mex_us_pct := 0, mex_us_amt := 0, rest_cd := ""
    date_from := cfg.year ++ "0101", date_to := "99991231" }

/-- The two synthetic header rows shared by ZZDE/ZZDF (export.py:262-265,
365-368): HS `"--"` then `"0000000000"`, zero rates, empty unit. -/
def rateSrcHeader1 : RateSrc := { hs := "--", ad_val := some 0, amt := some 0, rate_uom := "" }

/-- Second synthetic header row (HS `"0000000000"`). -/
def rateSrcHeader2 : RateSrc := { rateSrcHeader1 with hs := "0000000000" }

/-- `generate_zzde` (export.py:231-333): only for `CA`; filter the DTR rows
to the (empty, see `configMainCg`) main country group, compute
`MFN $ = ratePerUOM / multiplier` (multiplier `NaN` filled with 1), prepend
the header rows, left-join NOM for the STAT unit, and assemble the columns. -/
def generateZzde (dtr : List GenRow) (nom : List NomJoinRow) (cfg : AppConfig) :
    Option (List ZzdeRow) :=
  if cfg.country ≠ "CA" then some []
  else if dtr.isEmpty then some []
  else
    let srcs := (dtr.filter (fun r => r.country_group == configMainCg cfg)).map
      (fun r =>
        ({ hs := r.hs, ad_val := r.adValoremRate_percentage,
           amt := pdDivide r.specificRate_ratePerUOM (r.specificRate_multiplier.getD 1),
           rate_uom := r.specificRate_rateUOM } : RateSrc))
    if nom.isEmpty then none
    else
      some (((rateSrcHeader1 :: rateSrcHeader2 :: srcs).flatMap
          (fun s => (joinNom nom s.hs).map (fun p => (s, p)))).map (zzdeRowOf cfg))

/-- The ZZDF output schema (export.py:385-412), fields in column order. -/
structure ZzdfRow where
  cl : ℕ
  year : String
  us_hs_no : String
  gen_pct : String
  gen_amt : String
  can_pct : ℕ
  can_amt : ℕ
  mex_pct : ℕ
  mex_amt : ℕ
  umx_pct : ℕ
  umx_amt : ℕ
  oth_pct : ℕ
  oth_amt : ℕ
  oth1_pct : ℕ
  oth1_amt : ℕ
  oth2_pct : ℕ
  oth2_amt : ℕ
  oth3_pct : ℕ
  oth3_amt : ℕ
  uom_pct : String
  uom_amt : String
  stat_uom : String
  stat_qty : ℕ
  stat2_uom : String
  stat2_qty : ℕ
  restr : String
  deriving DecidableEq, Repr

/-- The final ZZDF pass replacing a cell equal to `'T'` by `'TO'` in every
column (export.py:414-416); numeric cells never equal `'T'`. -/
def tToTO (s : String) : String := if s = "T" then "TO" else s

/-- Assembly of one ZZDF row (export.py:385-416), including the whole-table
`'T'` → `'TO'` replacement applied to each string cell. -/
def zzdfRowOf (cfg : AppConfig) (pr : RateSrc × Option NomJoinRow) : ZzdfRow :=
  let s := pr.1
  let statUom := match pr.2 with
    | some nr => nr.alternate_unit_1
    | none => ""
  let stat2Uom := match pr.2 with
    | some nr => nr.alternate_unit_2
    | none => ""
  { cl := 10, year := tToTO cfg.year, us_hs_no := tToTO s.hs
    gen_pct := tToTO (formatRate s.ad_val), gen_amt := tToTO (formatRate s.amt)
    can_pct := 0, can_amt := 0, mex_pct := 0, mex_amt := 0, umx_pct := 0, umx_amt := 0
    oth_pct := 0, oth_amt := 0, oth1_pct := 0, oth1_amt := 0, oth2_pct := 0, oth2_amt := 0
    oth3_pct := 0, oth3_amt := 0
    uom_pct := tToTO "", uom_amt := tToTO s.rate_uom, stat_uom := tToTO statUom
    stat_qty := 0, stat2_uom := tToTO stat2Uom, stat2_qty := 0, restr := tToTO "" }

/-- `generate_zzdf` (export.py:335-419): only for `US`; like `generateZzde`
but with `GEN $` and the second STAT unit, and the final `'T'` → `'TO'`
whole-table replacement. -/
def generateZzdf (dtr : List GenRow) (nom : List NomJoinRow) (cfg : AppConfig) :
    Option (List ZzdfRow) :=
  if cfg.country ≠ "US" then some []
  else if dtr.isEmpty then some []
  else
    let srcs := (dtr.filter (fun r => r.country_group == configMainCg cfg)).map
      (fun r =>
        ({ hs := r.hs, ad_val := r.adValoremRate_percentage,
           amt := pdDivide r.specificRate_ratePerUOM (r.specificRate_multiplier.getD 1),
           rate_uom := r.specificRate_rateUOM } : RateSrc))
    if nom.isEmpty then none
    else
      some (((rateSrcHeader1 :: rateSrcHeader2 :: srcs).flatMap
          (fun s => (joinNom nom s.hs).map (fun p => (s, p)))).map (zzdfRowOf cfg))

/-! ### CSV export splitting (`export_csv_split`, export.py:432-472)

A produced file is modelled as its header row paired with its data rows;
writing to disk, version probing and naming are I/O glue outside the model. -/

/-- The `while start_row < total_rows` chunking loop: emit
`df.iloc[start:start+max_rows]` and advance.  `fuel` bounds the iteration
count (the caller passes the row count, enough whenever `maxRows ≥ 1`). -/
def csvLoop {α : Type} (maxRows : ℕ) : ℕ → List α → List (List α)
  | _, [] => []
  | 0, _ :: _ => []
  | fuel + 1, r :: rs => (r :: rs).take maxRows :: csvLoop maxRows fuel ((r :: rs).drop maxRows)

/-- `export_csv_split(df, ..., max_rows)`: an empty table exports nothing;
with `max_rows = 0` and a non-empty table the loop never advances
(`end_row = min(start_row + 0, total) = start_row`) and the function never
returns, modelled as `none`; otherwise the chunks of at most `max_rows`
rows, each file carrying the table's header row. -/
def exportCsvSplit {α : Type} (header : List String) (rows : List α) (maxRows : ℕ) :
    Option (List (List String × List α)) :=
  if rows.isEmpty then some []
  else if maxRows = 0 then none
  else some ((csvLoop maxRows rows.length rows).map (fun chunk => (header, chunk)))

/-! ### Concrete fixtures used by witnesses and counterexamples -/

/-- A configuration for a country none of the restricted generators target. -/
def cfgNZ : AppConfig :=
  { country := "NZ", year := "2026", min_chapter := 25, max_csv := 30000,
    main_country_group := "B001" }

/-- A Canada configuration whose main country group is `B001`. -/
def cfgCA : AppConfig :=
  { country := "CA", year := "2026", min_chapter := 25, max_csv := 30000,
    main_country_group := "B001" }

/-- A Mexico configuration whose main country group is `B001`. -/
def cfgMX : AppConfig :=
  { country := "MX", year := "2026", min_chapter := 25, max_csv := 30000,
    main_country_group := "B001" }

/-- A United States configuration whose main country group is `B001`. -/
def cfgUS : AppConfig :=
  { country := "US", year := "2026", min_chapter := 25, max_csv := 30000,
    main_country_group := "B001" }

/-- A duty-rate row belonging to the configured main country group `B001`. -/
def mainGroupRow : GenRow :=
  { hs := "7501000011", country_group := "B001", valid_from := "2026-01-01",
    valid_to := "9999-12-31", adValoremRate_percentage := some 5,
    specificRate_ratePerUOM := some 2, specificRate_multiplier := some 1 }

/-- A nomenclature join row for the fixture HS code. -/
def nomFixture : NomJoinRow :=
  { number := "7501000011", full_description := "Nickel", alternate_unit_1 := "KG" }

/-- Equality of all sort-key columns is decidable (used by concrete
witnesses). -/
instance (mode : FlagMode) (a b : FlagRow) : Decidable (sortKeysEq mode a b) := by
  cases mode <;> · unfold sortKeysEq; exact inferInstance

/-- A duty-rate row whose sort keys tie with `tieRowB` but whose payload
differs. -/
def tieRowA : FlagRow :=
  { country_group := "B001", hs := "2501000001", version_date := "2025-06-01",
    valid_from := "2026-01-01", valid_to := "9999-12-31", extra := "regulation A" }

/-- Same sort keys as `tieRowA`, different payload. -/
def tieRowB : FlagRow :=
  { tieRowA with extra := "regulation B" }

/-- A row with a different HS code than `tieRowA` (distinct sort keys). -/
def otherHsRow : FlagRow :=
  { tieRowA with hs := "2501000002", extra := "regulation C" }

/-- A candidate row whose `valid_to` year prefix (`"9bad"`) is not a number
yet compares lexicographically above any digit year. -/
def unparseableRow : FlagRow :=
  { country_group := "B001", hs := "2501000001", valid_to := "9bad-12-31" }

/-- Two nomenclature join rows that both carry the placeholder number
`0000000000`. -/
def nomDup : List NomJoinRow :=
  [{ number := "0000000000", full_description := "D1" },
   { number := "0000000000", full_description := "D2" }]

/-- A three-level nomenclature tree whose chapter has an empty official
description. -/
def emptyChapterRows : List NomRow :=
  [{ id := some "1", parent_id := none, official_description := "", level_id := "10" },
   { id := some "2", parent_id := some "1", official_description := "H", level_id := "20" },
   { id := some "3", parent_id := some "2", official_description := "L", level_id := "50" }]

end Descartes

namespace Descartes

/-! ## Theorems -/

/-! ### C4 — idempotence of the HS-code artifact strip -/

/-- C4, counterexample: the claim asserts the strip is idempotent for every
string code, but on `"0000"` one application gives `"00"` and a second
application gives `""`. -/
theorem cleanse_hs_not_idempotent :
    cleanseVal (cleanseVal "0000") ≠ cleanseVal "0000" ∧ cleanseVal "0000" = "00" ∧
      cleanseVal (cleanseVal "0000") = "" := by
  decide

/-- C4 (amended): the artifact strip is idempotent for every code that does
not begin with `"0000"` (equivalently, whenever the stripped remainder does
not itself begin with the `"00"` prefix), and any code not starting with
`"00"` is returned unchanged. -/
theorem cleanse_hs_idempotent_of_not_double_prefix (c : String)
    (h : c.data.take 4 ≠ ['0', '0', '0', '0']) :
    cleanseVal (cleanseVal c) = cleanseVal c ∧
      (c.data.take 2 ≠ ['0', '0'] → cleanseVal c = c) := by
  constructor
  · by_cases h2 : c.data.take 2 = ['0', '0']
    · obtain ⟨t, hd⟩ : ∃ t, c.data = '0' :: '0' :: t := by
        match hc : c.data with
        | [] => rw [hc] at h2; simp at h2
        | [a] => rw [hc] at h2; simp at h2
        | a :: b :: t =>
          refine ⟨t, ?_⟩
          rw [hc] at h2
          have hab : a = '0' ∧ b = '0' := by simpa using h2
          rw [hab.1, hab.2]
      have hstep : cleanseVal c = ⟨t⟩ := by
        unfold cleanseVal
        rw [if_pos h2, hd]
        rfl
      have ht : t.take 2 ≠ ['0', '0'] := by
        intro hcon
        apply h
        rw [hd]
        have htk : ('0' :: '0' :: t).take 4 = '0' :: '0' :: t.take 2 := rfl
        rw [htk, hcon]
      rw [hstep]
      unfold cleanseVal
      rw [if_neg ht]
    · have hstep : cleanseVal c = c := by
        unfold cleanseVal
        rw [if_neg h2]
      rw [hstep, hstep]
  · intro h2
    unfold cleanseVal
    rw [if_neg h2]

/-- C4 witness: the amended theorem applied at the concrete code
`"0075010000"`. -/
theorem cleanse_hs_idempotent_witness :
    ("0075010000" : String).data.take 4 ≠ ['0', '0', '0', '0'] ∧
      (cleanseVal (cleanseVal "0075010000") = cleanseVal "0075010000" ∧
        (("0075010000" : String).data.take 2 ≠ ['0', '0'] →
          cleanseVal "0075010000" = "0075010000")) :=
  ⟨by decide, cleanse_hs_idempotent_of_not_double_prefix "0075010000" (by decide)⟩

/-! ### C7 — the description builder returns a result for every record -/

/-- `buildLoop` yields one output entry per input row, whatever the memo
cache holds. -/
theorem buildLoop_length (dm : List (String × NomItem)) :
    ∀ (rows : List NomRow) (cache : List (String × String)),
      (buildLoop dm rows cache).length = rows.length := by
  intro rows
  induction rows with
  | nil => intro cache; rfl
  | cons r rs ih =>
    intro cache
    cases hid : r.id with
    | none => simp [buildLoop, hid, ih]
    | some rid =>
      by_cases hmem : (dm.lookup rid).isSome
      · simp [buildLoop, hid, hmem, ih]
      · simp [buildLoop, hid, hmem, ih]

/-- C7: `build_descriptions` is a total function of the input table — it
terminates (the recursion over the parent chain is fuelled by the
`depth > 20` cap) and returns one description per input record, on every
input, including a record whose `parent_id` is itself or lies on a parent
cycle of any length. -/
theorem build_descriptions_total (rows : List NomRow) :
    (buildDescriptions rows).length = rows.length ∧
      (buildDescriptions rows).map Prod.fst = rows := by
  constructor
  · exact buildLoop_length (dataMap rows) rows []
  · show (buildLoop (dataMap rows) rows []).map Prod.fst = rows
    generalize dataMap rows = dm
    generalize ([] : List (String × String)) = cache
    induction rows generalizing cache with
    | nil => rfl
    | cons r rs ih =>
      cases hid : r.id with
      | none => simp [buildLoop, hid, ih]
      | some rid =>
        by_cases hmem : (dm.lookup rid).isSome
        · simp [buildLoop, hid, hmem, ih]
        · simp [buildLoop, hid, hmem, ih]

/-! ### C8 — row-budget splitting boundary -/

/-- C8, counterexample: with a row budget `max_csv = 0` and a table of
`max_csv + 1 = 1` row, the claim demands exactly two files; the source loop
computes `end_row = min(start_row + 0, 1) = start_row` and never advances,
so no file list is ever returned (modelled as `none`). -/
theorem export_csv_split_zero_budget :
    exportCsvSplit (α := ℕ) ["col"] [7] 0 = none ∧
      exportCsvSplit (α := ℕ) ["col"] [7] 0 ≠ some [(["col"], []), (["col"], [7])] := by
  constructor
  · rfl
  · intro h
    simp [exportCsvSplit] at h

/-- C8 (amended): for every positive row budget `m` and table of exactly
`m + 1` rows, the export produces exactly two files — the first holding the
first `m` rows, the second the remaining single row — both carrying the
same header row. -/
theorem export_csv_split_boundary {α : Type} (header : List String) (rows : List α)
    (m : ℕ) (hm : 1 ≤ m) (hlen : rows.length = m + 1) :
    exportCsvSplit header rows m =
      some [(header, rows.take m), (header, rows.drop m)] ∧
      (rows.take m).length = m ∧ (rows.drop m).length = 1 := by
  have hne : rows ≠ [] := by
    intro h
    rw [h] at hlen
    simp at hlen
  have hdropLen : (rows.drop m).length = 1 := by
    rw [List.length_drop, hlen]
    omega
  have htakeLen : (rows.take m).length = m := by
    rw [List.length_take, hlen]
    omega
  refine ⟨?_, htakeLen, hdropLen⟩
  obtain ⟨r, rs, hrows⟩ : ∃ r rs, rows = r :: rs := by
    cases rows with
    | nil => exact absurd rfl hne
    | cons r rs => exact ⟨r, rs, rfl⟩
  obtain ⟨x, hx⟩ := List.length_eq_one.mp hdropLen
  obtain ⟨k, hk⟩ : ∃ k, m = k + 1 := ⟨m - 1, by omega⟩
  have hloop : csvLoop m rows.length rows = [rows.take m, rows.drop m] := by
    rw [hlen, hrows]
    show (r :: rs).take m :: csvLoop m m ((r :: rs).drop m) = _
    rw [← hrows, hx]
    have h1 : csvLoop m m [x] = [[x]] := by
      rw [hk]
      show [x].take (k + 1) :: csvLoop (k + 1) k ([x].drop (k + 1)) = [[x]]
      simp [csvLoop]
    rw [h1]
  unfold exportCsvSplit
  rw [if_neg (by simpa using hne), if_neg (by omega), hloop]
  rfl

/-- C8 witness: the amended theorem at budget `2` and a 3-row table. -/
theorem export_csv_split_boundary_witness :
    (1 ≤ 2 ∧ ([10, 20, 30] : List ℕ).length = 2 + 1) ∧
      (exportCsvSplit ["h"] ([10, 20, 30] : List ℕ) 2 =
          some [(["h"], [10, 20].take 2 ++ [30].take 0), (["h"], [30])] ∧
        (([10, 20, 30] : List ℕ).take 2).length = 2 ∧
        (([10, 20, 30] : List ℕ).drop 2).length = 1) := by
  refine ⟨⟨by decide, by decide⟩, ?_⟩
  have h := export_csv_split_boundary (α := ℕ) ["h"] [10, 20, 30] 2 (by decide) (by decide)
  simpa using h

/-! ### C9 — wrong-country invocation returns an empty table -/

/-- C9: invoking a country-restricted generator under a configuration for a
different country returns an empty table (and, the result being `some`, no
exception is raised): `generate_capdr`/`generate_zzde` demand `CA`,
`generate_mx6digits` demands `MX`, `generate_zzdf` demands `US`. -/
theorem wrong_country_generators_empty (dtr : List GenRow) (nom : List NomJoinRow)
    (cfg : AppConfig) :
    (cfg.country ≠ "CA" → generateCapdr dtr nom cfg = some []) ∧
    (cfg.country ≠ "MX" → generateMx6digits dtr nom cfg = some []) ∧
    (cfg.country ≠ "CA" → generateZzde dtr nom cfg = some []) ∧
    (cfg.country ≠ "US" → generateZzdf dtr nom cfg = some []) := by
  refine ⟨fun h => ?_, fun h => ?_, fun h => ?_, fun h => ?_⟩
  · unfold generateCapdr
    rw [if_pos h]
  · unfold generateMx6digits
    rw [if_pos h]
  · unfold generateZzde
    rw [if_pos h]
  · unfold generateZzdf
    rw [if_pos h]

/-- C9 witness: all four generators at the `NZ` configuration and concrete
non-empty inputs. -/
theorem wrong_country_generators_empty_witness :
    (cfgNZ.country ≠ "CA" ∧ cfgNZ.country ≠ "MX" ∧ cfgNZ.country ≠ "US") ∧
      (generateCapdr [mainGroupRow] [nomFixture] cfgNZ = some [] ∧
        generateMx6digits [mainGroupRow] [nomFixture] cfgNZ = some [] ∧
        generateZzde [mainGroupRow] [nomFixture] cfgNZ = some [] ∧
        generateZzdf [mainGroupRow] [nomFixture] cfgNZ = some []) := by
  have h := wrong_country_generators_empty [mainGroupRow] [nomFixture] cfgNZ
  exact ⟨⟨by decide, by decide, by decide⟩,
    h.1 (by decide), h.2.1 (by decide), h.2.2.1 (by decide), h.2.2.2 (by decide)⟩

/-! ### Comparator laws

`charsCmp` is a lawful three-way comparison; the lexicographic multi-key
comparator `cmpBySpec` inherits its laws key by key. -/

/-- Swapping the arguments of `charsCmp` swaps the verdict. -/
theorem charsCmp_swap : ∀ a b : List Char, charsCmp b a = (charsCmp a b).swap := by
  intro a
  induction a with
  | nil => intro b; cases b <;> rfl
  | cons x xs ih =>
    intro b
    cases b with
    | nil => rfl
    | cons y ys =>
      by_cases h1 : x < y
      · have h2 : ¬ y < x := lt_asymm h1
        simp [charsCmp, h1, h2, Ordering.swap]
      · by_cases h2 : y < x
        · simp [charsCmp, h1, h2, Ordering.swap]
        · simp [charsCmp, h1, h2, ih ys]

/-- `charsCmp` returns `eq` exactly on equal strings. -/
theorem charsCmp_eq_iff : ∀ a b : List Char, charsCmp a b = .eq ↔ a = b := by
  intro a
  induction a with
  | nil =>
    intro b
    cases b with
    | nil => simp [charsCmp]
    | cons y ys => simp [charsCmp]
  | cons x xs ih =>
    intro b
    cases b with
    | nil => simp [charsCmp]
    | cons y ys =>
      by_cases h1 : x < y
      · have hne : x ≠ y := ne_of_lt h1
        simp [charsCmp, h1, hne]
      · by_cases h2 : y < x
        · have hne : x ≠ y := (ne_of_lt h2).symm
          simp [charsCmp, h1, h2, hne]
        · have hxy : x = y := le_antisymm (not_lt.mp h2) (not_lt.mp h1)
          simp [charsCmp, h1, h2, hxy, ih ys]

/-- Comparing lists with equal heads compares the tails. -/
theorem charsCmp_cons_self (x : Char) (as bs : List Char) :
    charsCmp (x :: as) (x :: bs) = charsCmp as bs := by
  simp [charsCmp]

/-- Strict transitivity of `charsCmp`. -/
theorem charsCmp_lt_trans :
    ∀ (a b c : List Char), charsCmp a b = .lt → charsCmp b c = .lt → charsCmp a c = .lt := by
  intro a
  induction a with
  | nil =>
    intro b c h1 h2
    cases b with
    | nil => simp [charsCmp] at h1
    | cons y ys =>
      cases c with
      | nil => simp [charsCmp] at h2
      | cons z zs => simp [charsCmp]
  | cons x xs ih =>
    intro b c h1 h2
    cases b with
    | nil => simp [charsCmp] at h1
    | cons y ys =>
      cases c with
      | nil => simp [charsCmp] at h2
      | cons z zs =>
        by_cases hxy : x < y
        · by_cases hyz : y < z
          · simp [charsCmp, lt_trans hxy hyz]
          · by_cases hzy : z < y
            · simp [charsCmp, hyz, hzy] at h2
            · have hyzeq : y = z := le_antisymm (not_lt.mp hzy) (not_lt.mp hyz)
              subst hyzeq
              simp [charsCmp, hxy]
        · by_cases hyx : y < x
          · simp [charsCmp, hxy, hyx] at h1
          · have hxyeq : x = y := le_antisymm (not_lt.mp hyx) (not_lt.mp hxy)
            subst hxyeq
            rw [charsCmp_cons_self] at h1
            by_cases hyz : x < z
            · simp [charsCmp, hyz]
            · by_cases hzy : z < x
              · simp [charsCmp, hyz, hzy] at h2
              · have hyzeq : x = z := le_antisymm (not_lt.mp hzy) (not_lt.mp hyz)
                subst hyzeq
                rw [charsCmp_cons_self] at h2
                rw [charsCmp_cons_self]
                exact ih ys zs h1 h2

/-- `Ordering.then` distributes over `swap`. -/
theorem ordering_then_swap (o₁ o₂ : Ordering) : (o₁.then o₂).swap = o₁.swap.then o₂.swap := by
  cases o₁ <;> rfl

/-- `Ordering.then` is `eq` exactly when both parts are. -/
theorem ordering_then_eq_eq {o₁ o₂ : Ordering} : o₁.then o₂ = .eq ↔ o₁ = .eq ∧ o₂ = .eq := by
  cases o₁ <;> simp [Ordering.then]

/-- Decomposition of `o₁.then o₂ ≠ gt`. -/
theorem ordering_then_ne_gt {o₁ o₂ : Ordering} :
    o₁.then o₂ ≠ .gt ↔ o₁ = .lt ∨ (o₁ = .eq ∧ o₂ ≠ .gt) := by
  cases o₁ <;> simp [Ordering.then]

/-- String extensionality transported through `data`. -/
theorem str_data_inj {s t : String} : s.data = t.data ↔ s = t := by
  constructor
  · intro h
    cases s
    cases t
    exact congrArg String.mk h
  · intro h
    rw [h]

/-- `headCmp` swaps with its arguments. -/
theorem headCmp_swap (p : (FlagRow → String) × Bool) (x y : FlagRow) :
    headCmp p y x = (headCmp p x y).swap := by
  unfold headCmp
  cases hb : p.2
  · rw [if_neg Bool.false_ne_true, if_neg Bool.false_ne_true]
    exact charsCmp_swap _ _
  · rw [if_pos rfl, if_pos rfl]
    exact charsCmp_swap _ _

/-- `headCmp` is `eq` exactly when the projected column values coincide. -/
theorem headCmp_eq_iff (p : (FlagRow → String) × Bool) (x y : FlagRow) :
    headCmp p x y = .eq ↔ p.1 x = p.1 y := by
  unfold headCmp
  cases hb : p.2
  · rw [if_neg Bool.false_ne_true, charsCmp_eq_iff, str_data_inj]
    exact eq_comm
  · rw [if_pos rfl, charsCmp_eq_iff, str_data_inj]

/-- Strict transitivity of `headCmp`. -/
theorem headCmp_lt_trans (p : (FlagRow → String) × Bool) {x y z : FlagRow}
    (h1 : headCmp p x y = .lt) (h2 : headCmp p y z = .lt) : headCmp p x z = .lt := by
  unfold headCmp at h1 h2 ⊢
  cases hb : p.2
  · rw [hb] at h1 h2
    rw [if_neg Bool.false_ne_true] at h1 h2 ⊢
    exact charsCmp_lt_trans _ _ _ h2 h1
  · rw [hb] at h1 h2
    rw [if_pos rfl] at h1 h2 ⊢
    exact charsCmp_lt_trans _ _ _ h1 h2

/-- `headCmp` only looks at the projected values (left congruence). -/
theorem headCmp_congr_left (p : (FlagRow → String) × Bool) {x y : FlagRow}
    (h : p.1 x = p.1 y) (z : FlagRow) : headCmp p x z = headCmp p y z := by
  unfold headCmp
  rw [h]

/-- `headCmp` only looks at the projected values (right congruence). -/
theorem headCmp_congr_right (p : (FlagRow → String) × Bool) {y z : FlagRow}
    (h : p.1 y = p.1 z) (x : FlagRow) : headCmp p x y = headCmp p x z := by
  unfold headCmp
  rw [h]

/-- `cmpBySpec` swaps with its arguments. -/
theorem cmpBySpec_swap : ∀ (spec : SortSpec) (x y : FlagRow),
    cmpBySpec spec y x = (cmpBySpec spec x y).swap := by
  intro spec
  induction spec with
  | nil => intro x y; rfl
  | cons p rest ih =>
    intro x y
    show (headCmp p y x).then (cmpBySpec rest y x) = _
    rw [headCmp_swap, ih, ← ordering_then_swap]
    rfl

/-- `cmpBySpec` is `eq` exactly when every sort-key column coincides. -/
theorem cmpBySpec_eq_iff : ∀ (spec : SortSpec) (x y : FlagRow),
    cmpBySpec spec x y = .eq ↔ ∀ p ∈ spec, p.1 x = p.1 y := by
  intro spec
  induction spec with
  | nil => intro x y; simp [cmpBySpec]
  | cons p rest ih =>
    intro x y
    show (headCmp p x y).then (cmpBySpec rest x y) = .eq ↔ _
    rw [ordering_then_eq_eq, headCmp_eq_iff, ih]
    simp

/-- Transitivity of the non-strict order induced by `cmpBySpec`. -/
theorem cmpBySpec_le_trans : ∀ (spec : SortSpec) {x y z : FlagRow},
    cmpBySpec spec x y ≠ .gt → cmpBySpec spec y z ≠ .gt → cmpBySpec spec x z ≠ .gt := by
  intro spec
  induction spec with
  | nil => intro x y z _ _; simp [cmpBySpec]
  | cons p rest ih =>
    intro x y z h1 h2
    have h1' := ordering_then_ne_gt.mp h1
    have h2' := ordering_then_ne_gt.mp h2
    show (headCmp p x z).then (cmpBySpec rest x z) ≠ .gt
    rw [ordering_then_ne_gt]
    rcases h1' with hlt1 | ⟨heq1, hrest1⟩
    · rcases h2' with hlt2 | ⟨heq2, hrest2⟩
      · exact Or.inl (headCmp_lt_trans p hlt1 hlt2)
      · refine Or.inl ?_
        rw [← headCmp_congr_right p ((headCmp_eq_iff p y z).mp heq2) x]
        exact hlt1
    · rcases h2' with hlt2 | ⟨heq2, hrest2⟩
      · refine Or.inl ?_
        rw [headCmp_congr_left p ((headCmp_eq_iff p x y).mp heq1) z]
        exact hlt2
      · refine Or.inr ⟨?_, ih hrest1 hrest2⟩
        rw [headCmp_congr_left p ((headCmp_eq_iff p x y).mp heq1) z]
        exact heq2

/-- Totality of the non-strict order induced by `cmpBySpec`. -/
theorem cmpBySpec_total (spec : SortSpec) (x y : FlagRow) :
    cmpBySpec spec x y ≠ .gt ∨ cmpBySpec spec y x ≠ .gt := by
  cases hc : cmpBySpec spec x y with
  | lt => exact Or.inl (by simp [hc])
  | eq => exact Or.inl (by simp [hc])
  | gt =>
    refine Or.inr ?_
    rw [cmpBySpec_swap, hc]
    simp [Ordering.swap]

/-- Mutual `≤` under `cmpBySpec` forces equality of every sort key. -/
theorem cmpBySpec_antisymm (spec : SortSpec) {x y : FlagRow}
    (h1 : cmpBySpec spec x y ≠ .gt) (h2 : cmpBySpec spec y x ≠ .gt) :
    cmpBySpec spec x y = .eq := by
  cases hc : cmpBySpec spec x y with
  | lt =>
    exfalso
    apply h2
    rw [cmpBySpec_swap, hc]
    rfl
  | eq => rfl
  | gt => exact absurd hc h1

/-- A permutation that is sorted on both sides under a relation that is
antisymmetric on the listed elements is an equality of lists (the
first-wins classification depends only on the multiset once no two distinct
rows tie on every sort key). -/
theorem perm_sorted_unique {α : Type} {r : α → α → Prop} :
    ∀ {l₁ l₂ : List α}, l₁.Perm l₂ → l₁.Sorted r → l₂.Sorted r →
      (∀ a ∈ l₁, ∀ b ∈ l₁, r a b → r b a → a = b) → l₁ = l₂ := by
  intro l₁
  induction l₁ with
  | nil =>
    intro l₂ hp _ _ _
    exact (List.Perm.eq_nil hp.symm).symm
  | cons a t ih =>
    intro l₂ hp hs₁ hs₂ hanti
    cases l₂ with
    | nil => exact absurd (List.Perm.eq_nil hp) (by simp)
    | cons b s =>
      have hab : a = b := by
        by_contra hne
        have ha2 : a ∈ b :: s := hp.subset (List.mem_cons_self a t)
        have has : a ∈ s := by
          rcases List.mem_cons.mp ha2 with h | h
          · exact absurd h hne
          · exact h
        have hb1 : b ∈ a :: t := hp.symm.subset (List.mem_cons_self b s)
        have hbt : b ∈ t := by
          rcases List.mem_cons.mp hb1 with h | h
          · exact absurd h.symm hne
          · exact h
        have rab : r a b := (List.sorted_cons.mp hs₁).1 b hbt
        have rba : r b a := (List.sorted_cons.mp hs₂).1 a has
        exact hne (hanti a (List.mem_cons_self a t) b (List.mem_cons_of_mem a hbt) rab rba)
      subst hab
      have hts : t.Perm s := hp.cons_inv
      have htail := ih hts ((List.sorted_cons.mp hs₁).2) ((List.sorted_cons.mp hs₂).2)
        (fun a' ha' b' hb' hr1 hr2 =>
          hanti a' (List.mem_cons_of_mem a ha') b' (List.mem_cons_of_mem a hb') hr1 hr2)
      rw [htail]

/-! ### C1 — order invariance of flagging -/

/-- Sorting two permutations of the same rows under a sort specification on
which no two distinct rows tie yields the same sorted list. -/
theorem sortRows_spec_congr (spec : SortSpec) {l₁ l₂ : List FlagRow} (hperm : l₁.Perm l₂)
    (hinj : ∀ a ∈ l₁, ∀ b ∈ l₁, (∀ p ∈ spec, p.1 a = p.1 b) → a = b) :
    sortRows (cmpBySpec spec) l₁ = sortRows (cmpBySpec spec) l₂ := by
  have htot : IsTotal FlagRow (fun a b => cmpBySpec spec a b ≠ Ordering.gt) :=
    ⟨fun a b => cmpBySpec_total spec a b⟩
  have htrans : IsTrans FlagRow (fun a b => cmpBySpec spec a b ≠ Ordering.gt) :=
    ⟨fun _ _ _ h1 h2 => cmpBySpec_le_trans spec h1 h2⟩
  have hs₁ := @List.sorted_insertionSort FlagRow
    (fun a b => cmpBySpec spec a b ≠ Ordering.gt) (fun _ _ => inferInstance) htot htrans l₁
  have hs₂ := @List.sorted_insertionSort FlagRow
    (fun a b => cmpBySpec spec a b ≠ Ordering.gt) (fun _ _ => inferInstance) htot htrans l₂
  have hp1 := List.perm_insertionSort
    (fun a b : FlagRow => cmpBySpec spec a b ≠ Ordering.gt) l₁
  have hp2 := List.perm_insertionSort
    (fun a b : FlagRow => cmpBySpec spec a b ≠ Ordering.gt) l₂
  have hp : (sortRows (cmpBySpec spec) l₁).Perm (sortRows (cmpBySpec spec) l₂) :=
    hp1.trans (hperm.trans hp2.symm)
  exact perm_sorted_unique hp hs₁ hs₂
    (fun a ha b hb hab hba =>
      hinj a (hp1.subset ha) b (hp1.subset hb)
        ((cmpBySpec_eq_iff spec a b).mp (cmpBySpec_antisymm spec hab hba)))

/-- `sortKeysEq mode` coincides with columnwise equality over the mode's
sort specification. -/
theorem sortKeysEq_iff_spec (mode : FlagMode) (a b : FlagRow) :
    sortKeysEq mode a b ↔ ∀ p ∈ modeSpec mode, p.1 a = p.1 b := by
  cases mode <;>
    simp [sortKeysEq, modeSpec, dtrSortSpec, nomImportSortSpec, nomExportSortSpec]

/-- C1 (amended): for inputs in which any two rows agreeing on every
sort-key column of the mode are equal as records, `flag_hs` assigns the
same flags, in the same (sorted) output order, to every permutation of the
input.  (The un-amended claim, quantifying over all inputs, fails: the
stable sort breaks full sort-key ties by input order, see
`flag_hs_tie_not_order_invariant`.) -/
theorem flag_hs_order_invariant (mode : FlagMode) (year : String) {l₁ l₂ : List FlagRow}
    (hinj : ∀ a ∈ l₁, ∀ b ∈ l₁, sortKeysEq mode a b → a = b) (hperm : l₁.Perm l₂) :
    flagHs mode year l₁ = flagHs mode year l₂ := by
  have hkey : sortRows (cmpBySpec (modeSpec mode)) l₁ = sortRows (cmpBySpec (modeSpec mode)) l₂ :=
    sortRows_spec_congr (modeSpec mode) hperm
      (fun a ha b hb h => hinj a ha b hb ((sortKeysEq_iff_spec mode a b).mpr h))
  cases mode with
  | dtr =>
    show flagWith cmpDtr (dedupKey .dtr) year l₁ = flagWith cmpDtr (dedupKey .dtr) year l₂
    unfold flagWith
    simp only [modeSpec] at hkey
    rw [show sortRows cmpDtr l₁ = sortRows (cmpBySpec dtrSortSpec) l₁ from rfl,
      show sortRows cmpDtr l₂ = sortRows (cmpBySpec dtrSortSpec) l₂ from rfl, hkey]
  | nomImport =>
    show flagWith cmpNomImport (dedupKey .nomImport) year l₁ =
      flagWith cmpNomImport (dedupKey .nomImport) year l₂
    unfold flagWith
    simp only [modeSpec] at hkey
    rw [show sortRows cmpNomImport l₁ = sortRows (cmpBySpec nomImportSortSpec) l₁ from rfl,
      show sortRows cmpNomImport l₂ = sortRows (cmpBySpec nomImportSortSpec) l₂ from rfl, hkey]
  | nomExport =>
    show flagWith cmpNomExport (dedupKey .nomExport) year l₁ =
      flagWith cmpNomExport (dedupKey .nomExport) year l₂
    unfold flagWith
    simp only [modeSpec] at hkey
    rw [show sortRows cmpNomExport l₁ = sortRows (cmpBySpec nomExportSortSpec) l₁ from rfl,
      show sortRows cmpNomExport l₂ = sortRows (cmpBySpec nomExportSortSpec) l₂ from rfl, hkey]

/-- C1, counterexample to the claim as stated: `tieRowA` and `tieRowB` are
distinct records (different `regulation` payload) agreeing on every sort
key; swapping their input order swaps which of them is flagged
`01-active` and which `03-duplicate`, so flagging is not a function of the
input multiset alone. -/
theorem flag_hs_tie_not_order_invariant :
    ([tieRowA, tieRowB] : List FlagRow).Perm [tieRowB, tieRowA] ∧ tieRowA ≠ tieRowB ∧
      flagHs .dtr "2026" [tieRowA, tieRowB] =
        [(tieRowA, "01-active"), (tieRowB, "03-duplicate")] ∧
      flagHs .dtr "2026" [tieRowB, tieRowA] =
        [(tieRowB, "01-active"), (tieRowA, "03-duplicate")] ∧
      (tieRowA, "01-active") ∈ flagHs .dtr "2026" [tieRowA, tieRowB] ∧
      (tieRowA, "01-active") ∉ flagHs .dtr "2026" [tieRowB, tieRowA] := by
  decide

/-- C1 witness: the amended theorem applied to two rows with distinct HS
codes and a transposition of them. -/
theorem flag_hs_order_invariant_witness :
    ((∀ a ∈ [tieRowA, otherHsRow], ∀ b ∈ [tieRowA, otherHsRow],
        sortKeysEq .dtr a b → a = b) ∧
      ([tieRowA, otherHsRow] : List FlagRow).Perm [otherHsRow, tieRowA]) ∧
      flagHs .dtr "2026" [tieRowA, otherHsRow] = flagHs .dtr "2026" [otherHsRow, tieRowA] :=
  ⟨⟨by decide, by decide⟩,
    flag_hs_order_invariant .dtr "2026" (by decide) (by decide)⟩

/-! ### C2 — at most one non-duplicate per (group key, hs) pair -/

/-- A duplicate flag is assigned exactly to the marked rows. -/
theorem determineFlag_beq_dup (year : String) (b : Bool) (r : FlagRow) :
    (determineFlag year b r == "03-duplicate") = b := by
  cases b
  · unfold determineFlag
    rw [if_neg Bool.false_ne_true]
    by_cases h4 : 4 ≤ r.valid_to.data.length
    · rw [if_pos h4]
      by_cases hy : charsLe year.data (r.valid_to.data.take 4) = true
      · rw [if_pos hy]; rfl
      · rw [if_neg hy]; rfl
    · rw [if_neg h4]; rfl
  · rfl

/-- Once a key has been seen, every later row with that key is marked a
duplicate. -/
theorem markDups_seen_dup (dkey : FlagRow → String × String) (k : String × String) :
    ∀ (l : List FlagRow) (seen : List (String × String)), k ∈ seen →
      ∀ q ∈ markDups dkey seen l, dkey q.1 = k → q.2 = true := by
  intro l
  induction l with
  | nil => intro seen _ q hq; simp [markDups] at hq
  | cons r rs ih =>
    intro seen hseen q hq hk
    rcases List.mem_cons.mp hq with hq1 | hq2
    · rw [hq1]
      simp only [decide_eq_true_eq]
      rw [hq1] at hk
      simp only at hk
      rw [hk]
      exact hseen
    · exact ih (dkey r :: seen) (List.mem_cons_of_mem _ hseen) q hq2 hk

/-- At most one row per key is left unmarked by `markDups`; none if the key
was already seen. -/
theorem markDups_filter_le (dkey : FlagRow → String × String) (k : String × String) :
    ∀ (l : List FlagRow) (seen : List (String × String)),
      ((markDups dkey seen l).filter (fun q => decide (dkey q.1 = k) && !q.2)).length ≤
        (if k ∈ seen then 0 else 1) := by
  intro l
  induction l with
  | nil => intro seen; simp [markDups]
  | cons r rs ih =>
    intro seen
    show (List.filter _ ((r, decide (dkey r ∈ seen)) :: markDups dkey (dkey r :: seen) rs)).length ≤ _
    rw [List.filter_cons]
    by_cases hk : dkey r = k
    · by_cases hs : k ∈ seen
      · have hd : (decide (dkey r ∈ seen)) = true := by
          rw [hk]; exact decide_eq_true hs
        have hcond : (decide (dkey r = k) && !(decide (dkey r ∈ seen))) = false := by
          rw [hd]; simp
        rw [if_neg (by rw [hcond]; exact Bool.false_ne_true)]
        have := ih (dkey r :: seen)
        rw [if_pos (by rw [hk]; exact List.mem_cons_self _ _)] at this
        rw [if_pos hs]
        exact this
      · have hd : (decide (dkey r ∈ seen)) = false := by
          rw [hk]; exact decide_eq_false hs
        have hcond : (decide (dkey r = k) && !(decide (dkey r ∈ seen))) = true := by
          rw [hd, decide_eq_true hk]; rfl
        rw [if_pos (by rw [hcond])]
        have := ih (dkey r :: seen)
        rw [if_pos (by rw [hk]; exact List.mem_cons_self _ _)] at this
        rw [if_neg hs]
        simpa using this
    · have hcond : (decide (dkey r = k) && !(decide (dkey r ∈ seen))) = false := by
        rw [decide_eq_false hk]; rfl
      rw [if_neg (by rw [hcond]; exact Bool.false_ne_true)]
      have := ih (dkey r :: seen)
      have hmem : (k ∈ dkey r :: seen) ↔ (k ∈ seen) := by
        constructor
        · intro hm
          rcases List.mem_cons.mp hm with h | h
          · exact absurd h.symm hk
          · exact h
        · exact List.mem_cons_of_mem _
      by_cases hs : k ∈ seen
      · rw [if_pos (hmem.mpr hs)] at this
        rw [if_pos hs]
        exact this
      · rw [if_neg (fun hc => hs (hmem.mp hc))] at this
        rw [if_neg hs]
        exact this

/-- The candidate count of `flagWith` per dedup key. -/
theorem flagWith_filter_le_one (cmp : FlagRow → FlagRow → Ordering)
    (dkey : FlagRow → String × String) (year : String) (l : List FlagRow)
    (k : String × String) :
    ((flagWith cmp dkey year l).filter
        (fun p => decide (dkey p.1 = k) && !(p.2 == "03-duplicate"))).length ≤ 1 := by
  unfold flagWith
  rw [List.filter_map]
  rw [List.length_map]
  have hcongr : List.filter
      ((fun p : FlagRow × String => decide (dkey p.1 = k) && !(p.2 == "03-duplicate")) ∘
        (fun p : FlagRow × Bool => (p.1, determineFlag year p.2 p.1)))
      (markDups dkey [] (sortRows cmp l)) =
      List.filter (fun q : FlagRow × Bool => decide (dkey q.1 = k) && !q.2)
      (markDups dkey [] (sortRows cmp l)) := by
    apply List.filter_congr
    intro q _
    show (decide (dkey q.1 = k) && !(determineFlag year q.2 q.1 == "03-duplicate")) = _
    rw [determineFlag_beq_dup]
  rw [hcongr]
  have := markDups_filter_le dkey k (sortRows cmp l) []
  simpa using this

/-- C2: after flagging, for every `(group_key, hs)` pair at most one record
is a candidate (`01-active` or `02-invalid`, i.e. not `03-duplicate`), and
every record's flag is one of the three statuses — so every further record
of the pair is `03-duplicate`. -/
theorem flag_hs_at_most_one_candidate (mode : FlagMode) (year : String) (l : List FlagRow)
    (g h : String) :
    ((flagHs mode year l).filter
        (fun p => decide (dedupKey mode p.1 = (g, h)) && !(p.2 == "03-duplicate"))).length ≤ 1 ∧
      ∀ p ∈ flagHs mode year l,
        p.2 = "01-active" ∨ p.2 = "02-invalid" ∨ p.2 = "03-duplicate" := by
  constructor
  · cases mode with
    | dtr => exact flagWith_filter_le_one cmpDtr (dedupKey .dtr) year l (g, h)
    | nomImport => exact flagWith_filter_le_one cmpNomImport (dedupKey .nomImport) year l (g, h)
    | nomExport => exact flagWith_filter_le_one cmpNomExport (dedupKey .nomExport) year l (g, h)
  · intro p hp
    have hflag : ∀ (cmp : FlagRow → FlagRow → Ordering) (dkey : FlagRow → String × String),
        p ∈ flagWith cmp dkey year l →
        p.2 = "01-active" ∨ p.2 = "02-invalid" ∨ p.2 = "03-duplicate" := by
      intro cmp dkey hmem
      unfold flagWith at hmem
      rcases List.mem_map.mp hmem with ⟨q, -, hq⟩
      rw [← hq]
      show determineFlag year q.2 q.1 = _ ∨ determineFlag year q.2 q.1 = _ ∨
        determineFlag year q.2 q.1 = _
      unfold determineFlag
      by_cases hd : q.2 = true
      · rw [if_pos hd]
        exact Or.inr (Or.inr rfl)
      · rw [if_neg hd]
        by_cases h4 : 4 ≤ q.1.valid_to.data.length
        · rw [if_pos h4]
          by_cases hy : charsLe year.data (q.1.valid_to.data.take 4) = true
          · rw [if_pos hy]; exact Or.inl rfl
          · rw [if_neg hy]; exact Or.inr (Or.inl rfl)
        · rw [if_neg h4]; exact Or.inr (Or.inl rfl)
    cases mode with
    | dtr => exact hflag cmpDtr (dedupKey .dtr) hp
    | nomImport => exact hflag cmpNomImport (dedupKey .nomImport) hp
    | nomExport => exact hflag cmpNomExport (dedupKey .nomExport) hp

/-! ### C5 — candidate classification by the valid_to year prefix -/

/-- C5, counterexample to the claim as stated: the claim requires a
candidate with an unparseable `valid_to` to be `02-invalid`, but
`determine_flag` only performs a string comparison of the first four
characters, so `valid_to = "9bad-12-31"` (year prefix `"9bad"`, not a
number) is flagged `01-active` because `"9bad" >= "2026"`
lexicographically. -/
theorem flag_hs_unparseable_flagged_active :
    flagHs .dtr "2026" [unparseableRow] = [(unparseableRow, "01-active")] ∧
      (unparseableRow.valid_to.data.take 4).all Char.isDigit = false ∧
      4 ≤ unparseableRow.valid_to.data.length := by
  decide

/-- The candidate flag rule for one `flagWith` instance. -/
theorem flagWith_candidate_flag (cmp : FlagRow → FlagRow → Ordering)
    (dkey : FlagRow → String × String) (year : String) (l : List FlagRow) :
    ∀ p ∈ flagWith cmp dkey year l, p.2 ≠ "03-duplicate" →
      ((p.2 = "01-active" ↔
          4 ≤ p.1.valid_to.data.length ∧
            charsLe year.data (p.1.valid_to.data.take 4) = true) ∧
        (p.2 = "02-invalid" ↔
          ¬(4 ≤ p.1.valid_to.data.length ∧
            charsLe year.data (p.1.valid_to.data.take 4) = true))) := by
  intro p hmem hnd
  unfold flagWith at hmem
  rcases List.mem_map.mp hmem with ⟨q, -, hq⟩
  have hq2 : q.2 = false := by
    by_contra hc
    have : q.2 = true := by
      cases hqq : q.2
      · exact absurd hqq hc
      · rfl
    apply hnd
    rw [← hq]
    show determineFlag year q.2 q.1 = _
    unfold determineFlag
    rw [if_pos this]
  rw [← hq]
  show (determineFlag year q.2 q.1 = "01-active" ↔ _) ∧ (determineFlag year q.2 q.1 = "02-invalid" ↔ _)
  unfold determineFlag
  rw [if_neg (by rw [hq2]; exact Bool.false_ne_true)]
  by_cases h4 : 4 ≤ q.1.valid_to.data.length
  · rw [if_pos h4]
    by_cases hy : charsLe year.data (q.1.valid_to.data.take 4) = true
    · rw [if_pos hy]
      constructor
      · exact iff_of_true rfl ⟨h4, hy⟩
      · exact iff_of_false (by decide) (fun hc => hc ⟨h4, hy⟩)
    · rw [if_neg hy]
      constructor
      · exact iff_of_false (by decide) (fun hc => hy hc.2)
      · exact iff_of_true rfl (fun hc => hy hc.2)
  · rw [if_neg h4]
    constructor
    · exact iff_of_false (by decide) (fun hc => h4 hc.1)
    · exact iff_of_true rfl (fun hc => h4 hc.1)

/-- C5 (amended): a non-duplicate record is `01-active` exactly when its
`valid_to` has at least 4 characters whose 4-character prefix compares
lexicographically at or above the configured year, and `02-invalid`
otherwise (in particular when `valid_to` is shorter than 4 characters).
An unparseable but lexicographically large prefix is therefore `01-active`,
not `02-invalid` as the original claim states. -/
theorem flag_hs_candidate_year_rule (mode : FlagMode) (year : String) (l : List FlagRow) :
    ∀ p ∈ flagHs mode year l, p.2 ≠ "03-duplicate" →
      ((p.2 = "01-active" ↔
          4 ≤ p.1.valid_to.data.length ∧
            charsLe year.data (p.1.valid_to.data.take 4) = true) ∧
        (p.2 = "02-invalid" ↔
          ¬(4 ≤ p.1.valid_to.data.length ∧
            charsLe year.data (p.1.valid_to.data.take 4) = true))) := by
  cases mode with
  | dtr => exact flagWith_candidate_flag cmpDtr (dedupKey .dtr) year l
  | nomImport => exact flagWith_candidate_flag cmpNomImport (dedupKey .nomImport) year l
  | nomExport => exact flagWith_candidate_flag cmpNomExport (dedupKey .nomExport) year l

/-- C5 witness: the amended rule applied to the concrete candidate
`tieRowA` (`valid_to = "9999-12-31"`, flagged `01-active` under year 2026). -/
theorem flag_hs_candidate_year_rule_witness :
    ((tieRowA, "01-active") ∈ flagHs .dtr "2026" [tieRowA] ∧
        ("01-active" : String) ≠ "03-duplicate") ∧
      ((("01-active" : String) = "01-active" ↔
          4 ≤ tieRowA.valid_to.data.length ∧
            charsLe "2026".data (tieRowA.valid_to.data.take 4) = true) ∧
        (("01-active" : String) = "02-invalid" ↔
          ¬(4 ≤ tieRowA.valid_to.data.length ∧
            charsLe "2026".data (tieRowA.valid_to.data.take 4) = true))) :=
  ⟨⟨by decide, by decide⟩,
    flag_hs_candidate_year_rule .dtr "2026" [tieRowA] (tieRowA, "01-active")
      (by decide) (by decide)⟩

/-! ### C6 — full description of a three-level tree -/

/-- `List.lookup` finds the binding at the head. -/
theorem lookup_cons_self {β : Type} (k : String) (v : β) (l : List (String × β)) :
    List.lookup k ((k, v) :: l) = some v := by
  simp [List.lookup]

/-- `List.lookup` skips a head with a different key. -/
theorem lookup_cons_ne {β : Type} {k k' : String} (v : β) (l : List (String × β)) (h : k ≠ k') :
    List.lookup k ((k', v) :: l) = List.lookup k l := by
  have hb : (k == k') = false := beq_eq_false_iff_ne.mpr h
  simp [List.lookup, hb]

/-- One-step unfolding of `getFullDesc` at positive fuel. -/
theorem getFullDesc_succ (dm : List (String × NomItem)) (fuel : ℕ) (currId : String)
    (cache : List (String × String)) :
    getFullDesc dm (fuel + 1) currId cache =
      (match dm.lookup currId with
      | none => ("", cache)
      | some item =>
        match cache.lookup currId with
        | some v => (v, cache)
        | none =>
          if item.lvl = "10" then (item.desc, (currId, item.desc) :: cache)
          else
            match item.pid with
            | some pid =>
              if pid ≠ "" ∧ pid ≠ currId then
                let res := getFullDesc dm fuel pid cache
                let full := if res.1 ≠ "" then res.1 ++ "---" ++ item.desc else item.desc
                (full, (currId, full) :: res.2)
              else (item.desc, (currId, item.desc) :: cache)
            | none => (item.desc, (currId, item.desc) :: cache)) := rfl

/-- A level-10 (chapter) record resolves to its own description and caches
it. -/
theorem getFullDesc_lvl10 (dm : List (String × NomItem)) (fuel : ℕ) (currId : String)
    (cache : List (String × String)) (item : NomItem)
    (hdm : dm.lookup currId = some item) (hc : cache.lookup currId = none)
    (hlvl : item.lvl = "10") :
    getFullDesc dm (fuel + 1) currId cache = (item.desc, (currId, item.desc) :: cache) := by
  rw [getFullDesc_succ, hdm, hc]
  dsimp only
  rw [if_pos hlvl]

/-- A cached id resolves to the cached value. -/
theorem getFullDesc_cached (dm : List (String × NomItem)) (fuel : ℕ) (currId : String)
    (cache : List (String × String)) (v : String) (item : NomItem)
    (hdm : dm.lookup currId = some item) (hc : cache.lookup currId = some v) :
    getFullDesc dm (fuel + 1) currId cache = (v, cache) := by
  rw [getFullDesc_succ, hdm, hc]

/-- A non-chapter record with a usable parent pointer resolves through the
parent. -/
theorem getFullDesc_parent (dm : List (String × NomItem)) (fuel : ℕ) (currId : String)
    (cache : List (String × String)) (item : NomItem) (pid : String)
    (hdm : dm.lookup currId = some item) (hc : cache.lookup currId = none)
    (hlvl : item.lvl ≠ "10") (hpid : item.pid = some pid)
    (hp0 : pid ≠ "") (hpc : pid ≠ currId) :
    getFullDesc dm (fuel + 1) currId cache =
      (if (getFullDesc dm fuel pid cache).1 ≠ "" then
          ((getFullDesc dm fuel pid cache).1 ++ "---" ++ item.desc,
            (currId, (getFullDesc dm fuel pid cache).1 ++ "---" ++ item.desc) ::
              (getFullDesc dm fuel pid cache).2)
        else (item.desc, (currId, item.desc) :: (getFullDesc dm fuel pid cache).2)) := by
  rw [getFullDesc_succ, hdm, hc]
  dsimp only
  rw [if_neg hlvl, hpid]
  dsimp only
  rw [if_pos ⟨hp0, hpc⟩]
  by_cases hr : (getFullDesc dm fuel pid cache).1 ≠ ""
  · rw [if_pos hr, if_pos hr]
  · rw [if_neg hr, if_neg hr]

/-- One-step unfolding of `buildLoop`. -/
theorem buildLoop_cons (dm : List (String × NomItem)) (r : NomRow) (rs : List NomRow)
    (cache : List (String × String)) :
    buildLoop dm (r :: rs) cache =
      (match r.id with
      | some rid =>
        if (dm.lookup rid).isSome then
          let res := getFullDesc dm 21 rid cache
          (r, res.1) :: buildLoop dm rs res.2
        else (r, replaceChars r.official_description) :: buildLoop dm rs cache
      | none => (r, replaceChars r.official_description) :: buildLoop dm rs cache) := rfl

/-- Appending to a non-empty string stays non-empty. -/
theorem str_append_ne_empty_left {a : String} (b : String) (h : a ≠ "") : a ++ b ≠ "" := by
  intro hc
  apply h
  have hdata : (a ++ b).data = [] := by rw [hc]
  rw [String.data_append] at hdata
  have hnil := List.append_eq_nil.mp hdata
  exact str_data_inj.mp (by rw [hnil.1])

/-- C6, counterexample to the claim as stated: a well-linked three-level
tree whose chapter description sanitizes to `""` gives the leaf the full
description `"H---L"`, not `"" ++ "---" ++ "H" ++ "---" ++ "L"` as the
claimed formula demands, because `get_full_desc` drops the separator when
the resolved parent description is falsy. -/
theorem build_descriptions_empty_chapter :
    (buildDescriptions emptyChapterRows).map Prod.snd = ["", "H", "H---L"] ∧
      ("H---L" : String) ≠ "" ++ "---" ++ "H" ++ "---" ++ "L" := by
  decide

/-- C6 (amended): for every three-level tree — a level-10 chapter, a child
heading, a grandchild leaf, with well-formed, non-empty, pairwise-distinct
ids — whose chapter description sanitizes to a non-empty string,
`build_descriptions` gives the heading `chapter --- heading` and the leaf
`chapter --- heading --- leaf`, every segment being the record's official
description with `;` replaced by `.`. -/
theorem build_descriptions_three_level (cid hid lid cd hd ld hlvl llvl : String)
    (hc0 : cid ≠ "") (hh0 : hid ≠ "")
    (hch : cid ≠ hid) (hcl : cid ≠ lid) (hhl : hid ≠ lid)
    (hhlvl : hlvl ≠ "10") (hllvl : llvl ≠ "10")
    (hcd : replaceChars cd ≠ "") :
    buildDescriptions
        [{ id := some cid, parent_id := none, official_description := cd, level_id := "10" },
         { id := some hid, parent_id := some cid, official_description := hd, level_id := hlvl },
         { id := some lid, parent_id := some hid, official_description := ld, level_id := llvl }] =
      [({ id := some cid, parent_id := none, official_description := cd, level_id := "10" },
          replaceChars cd),
       ({ id := some hid, parent_id := some cid, official_description := hd, level_id := hlvl },
          replaceChars cd ++ "---" ++ replaceChars hd),
       ({ id := some lid, parent_id := some hid, official_description := ld, level_id := llvl },
          (replaceChars cd ++ "---" ++ replaceChars hd) ++ "---" ++ replaceChars ld)] := by
  have hdm : dataMap
      [{ id := some cid, parent_id := none, official_description := cd, level_id := "10" },
       { id := some hid, parent_id := some cid, official_description := hd, level_id := hlvl },
       { id := some lid, parent_id := some hid, official_description := ld, level_id := llvl }] =
      [(lid, ⟨some hid, replaceChars ld, llvl⟩),
       (hid, ⟨some cid, replaceChars hd, hlvl⟩),
       (cid, ⟨none, replaceChars cd, "10"⟩)] := rfl
  have hlc : List.lookup cid
      [(lid, (⟨some hid, replaceChars ld, llvl⟩ : NomItem)),
       (hid, ⟨some cid, replaceChars hd, hlvl⟩),
       (cid, ⟨none, replaceChars cd, "10"⟩)] = some ⟨none, replaceChars cd, "10"⟩ := by
    rw [lookup_cons_ne _ _ hcl, lookup_cons_ne _ _ hch, lookup_cons_self]
  have hlh : List.lookup hid
      [(lid, (⟨some hid, replaceChars ld, llvl⟩ : NomItem)),
       (hid, ⟨some cid, replaceChars hd, hlvl⟩),
       (cid, ⟨none, replaceChars cd, "10"⟩)] = some ⟨some cid, replaceChars hd, hlvl⟩ := by
    rw [lookup_cons_ne _ _ hhl, lookup_cons_self]
  have hll : List.lookup lid
      [(lid, (⟨some hid, replaceChars ld, llvl⟩ : NomItem)),
       (hid, ⟨some cid, replaceChars hd, hlvl⟩),
       (cid, ⟨none, replaceChars cd, "10"⟩)] = some ⟨some hid, replaceChars ld, llvl⟩ :=
    lookup_cons_self _ _ _
  set dm : List (String × NomItem) :=
    [(lid, ⟨some hid, replaceChars ld, llvl⟩),
     (hid, ⟨some cid, replaceChars hd, hlvl⟩),
     (cid, ⟨none, replaceChars cd, "10"⟩)] with hdmdef
  have hg1 : getFullDesc dm 21 cid [] = (replaceChars cd, [(cid, replaceChars cd)]) := by
    rw [show (21 : ℕ) = 20 + 1 from rfl]
    exact getFullDesc_lvl10 dm 20 cid [] _ hlc rfl rfl
  have hg2c : getFullDesc dm 20 cid [(cid, replaceChars cd)] =
      (replaceChars cd, [(cid, replaceChars cd)]) := by
    rw [show (20 : ℕ) = 19 + 1 from rfl]
    exact getFullDesc_cached dm 19 cid _ _ _ hlc (lookup_cons_self _ _ _)
  have hg2 : getFullDesc dm 21 hid [(cid, replaceChars cd)] =
      (replaceChars cd ++ "---" ++ replaceChars hd,
        [(hid, replaceChars cd ++ "---" ++ replaceChars hd), (cid, replaceChars cd)]) := by
    rw [show (21 : ℕ) = 20 + 1 from rfl]
    rw [getFullDesc_parent dm 20 hid _ _ cid hlh
      (by rw [lookup_cons_ne _ _ (Ne.symm hch)]; rfl) hhlvl rfl hc0 hch]
    rw [hg2c]
    dsimp only
    rw [if_pos hcd]
  have hg3c : getFullDesc dm 20 hid
      [(hid, replaceChars cd ++ "---" ++ replaceChars hd), (cid, replaceChars cd)] =
      (replaceChars cd ++ "---" ++ replaceChars hd,
        [(hid, replaceChars cd ++ "---" ++ replaceChars hd), (cid, replaceChars cd)]) := by
    rw [show (20 : ℕ) = 19 + 1 from rfl]
    exact getFullDesc_cached dm 19 hid _ _ _ hlh (lookup_cons_self _ _ _)
  have hfull2 : (replaceChars cd ++ "---" ++ replaceChars hd : String) ≠ "" :=
    str_append_ne_empty_left _ (str_append_ne_empty_left _ hcd)
  have hg3 : getFullDesc dm 21 lid
      [(hid, replaceChars cd ++ "---" ++ replaceChars hd), (cid, replaceChars cd)] =
      ((replaceChars cd ++ "---" ++ replaceChars hd) ++ "---" ++ replaceChars ld,
        [(lid, (replaceChars cd ++ "---" ++ replaceChars hd) ++ "---" ++ replaceChars ld),
         (hid, replaceChars cd ++ "---" ++ replaceChars hd), (cid, replaceChars cd)]) := by
    rw [show (21 : ℕ) = 20 + 1 from rfl]
    rw [getFullDesc_parent dm 20 lid _ _ hid hll
      (by rw [lookup_cons_ne _ _ (Ne.symm hhl), lookup_cons_ne _ _ (Ne.symm hcl)]; rfl)
      hllvl rfl hh0 hhl]
    rw [hg3c]
    dsimp only
    rw [if_pos hfull2]
  show buildLoop dm _ [] = _
  rw [buildLoop_cons]
  try dsimp only
  rw [hlc]
  try dsimp only
  rw [hg1]
  try dsimp only
  rw [buildLoop_cons]
  try dsimp only
  rw [hlh]
  try dsimp only
  rw [hg2]
  try dsimp only
  rw [buildLoop_cons]
  try dsimp only
  rw [hll]
  try dsimp only
  rw [hg3]
  simp [buildLoop]

/-- C6 witness: the amended theorem at a concrete tree whose descriptions
contain semicolons. -/
theorem build_descriptions_three_level_witness :
    (("1" : String) ≠ "" ∧ ("2" : String) ≠ "" ∧ ("1" : String) ≠ "2" ∧
        ("1" : String) ≠ "3" ∧ ("2" : String) ≠ "3" ∧ ("20" : String) ≠ "10" ∧
        ("50" : String) ≠ "10" ∧ replaceChars "Salt; sulphur" ≠ "") ∧
      buildDescriptions
          [{ id := some "1", parent_id := none,
             official_description := "Salt; sulphur", level_id := "10" },
           { id := some "2", parent_id := some "1",
             official_description := "Salt", level_id := "20" },
           { id := some "3", parent_id := some "2",
             official_description := "Table salt", level_id := "50" }] =
        [({ id := some "1", parent_id := none,
            official_description := "Salt; sulphur", level_id := "10" },
            replaceChars "Salt; sulphur"),
         ({ id := some "2", parent_id := some "1",
            official_description := "Salt", level_id := "20" },
            replaceChars "Salt; sulphur" ++ "---" ++ replaceChars "Salt"),
         ({ id := some "3", parent_id := some "2",
            official_description := "Table salt", level_id := "50" },
            (replaceChars "Salt; sulphur" ++ "---" ++ replaceChars "Salt") ++ "---" ++
              replaceChars "Table salt")] :=
  ⟨⟨by decide, by decide, by decide, by decide, by decide, by decide, by decide, by decide⟩,
    build_descriptions_three_level "1" "2" "3" "Salt; sulphur" "Salt" "Table salt" "20" "50"
      (by decide) (by decide) (by decide) (by decide) (by decide) (by decide) (by decide)
      (by decide)⟩

/-! ### C3 — the restricted generators ignore the configured main country group -/

/-- C3: the configuration exposes `main_country_group = "B001"` and the
single real DTR row belongs to that group, yet every restricted generator
drops it — `generate_capdr` returns no rows at all, and
`generate_mx6digits`/`generate_zzde`/`generate_zzdf` emit only rows derived
from the synthetic `--`/`0000000000` placeholders — because the filter
compares against `config.main_cg`, an attribute `AppConfig` never defines,
whose `hasattr` fallback is the empty string (see `configMainCg`). -/
theorem generators_ignore_main_country_group :
    cfgCA.main_country_group = "B001" ∧ mainGroupRow.country_group = "B001" ∧
      generateCapdr [mainGroupRow] [nomFixture] cfgCA = some [] ∧
      (generateMx6digits [mainGroupRow] [nomFixture] cfgMX).map
          (fun rows => rows.map Zd14Row.hs_number) = some ["000000"] ∧
      (generateZzde [mainGroupRow] [nomFixture] cfgCA).map
          (fun rows => rows.map ZzdeRow.can_hs_no) = some ["--", "0000000000"] ∧
      (generateZzdf [mainGroupRow] [nomFixture] cfgUS).map
          (fun rows => rows.map ZzdfRow.us_hs_no) = some ["--", "0000000000"] := by
  decide

/-! ### C10 — the two synthetic ZD14 placeholder rows -/

/-- C10, counterexample to the claim as stated: when the nomenclature table
itself contains records numbered `0000000000`, the left join duplicates the
second synthetic row once per match, so the output begins with three
placeholder-numbered rows rather than exactly two. -/
theorem generate_zd14_placeholder_collision :
    (generateZd14 [mainGroupRow] nomDup cfgNZ).map (fun rows => rows.map Zd14Row.hs_number) =
      some ["--", "0000000000", "0000000000", "7501000011"] := by
  decide

/-- A successful `pyInt` parse certifies a non-empty all-digit string. -/
theorem pyInt_digits {s : String} {n : ℕ} (h : pyInt s = some n) :
    s.data ≠ [] ∧ s.data.all Char.isDigit = true := by
  by_contra hc
  unfold pyInt at h
  rw [if_neg hc] at h
  exact Option.noConfusion h

/-- A digit is neither `-` nor a space. -/
theorem char_digit_not_stripped {c : Char} (h : c.isDigit = true) : c ≠ '-' ∧ c ≠ ' ' := by
  constructor
  · intro hc
    subst hc
    exact absurd h (by decide)
  · intro hc
    subst hc
    exact absurd h (by decide)

/-- `format_date_from` is the identity (rendered through `int`) on the
synthetic year-start date of a 4-character digit year. -/
theorem formatDateFrom_year_start (year : String) (ysi : ℕ)
    (hy : pyInt (year ++ "0101") = some ysi) (hylen : year.data.length = 4) :
    formatDateFrom (year ++ "0101") ysi = toString ysi := by
  obtain ⟨hne0, hdig⟩ := pyInt_digits hy
  have hne : (year ++ "0101" : String) ≠ "" := by
    intro h0
    apply hne0
    rw [h0]
  have hstrip : stripDashSpace (year ++ "0101") = year ++ "0101" := by
    unfold stripDashSpace
    apply str_data_inj.mp
    show List.filter _ (year ++ "0101").data = (year ++ "0101").data
    apply List.filter_eq_self.mpr
    intro a ha
    exact decide_eq_true (char_digit_not_stripped (List.all_eq_true.mp hdig a ha))
  have hlen8 : (year ++ "0101").data.length = 8 := by
    rw [String.data_append, List.length_append, hylen]
    rfl
  have htake : (year ++ "0101").data.take 8 = (year ++ "0101").data :=
    List.take_of_length_le (by rw [hlen8])
  unfold formatDateFrom
  rw [if_neg hne, hstrip, htake]
  show (match pyInt (year ++ "0101") with
    | some n => if n < ysi then toString ysi else toString n
    | none => year ++ "0101") = toString ysi
  rw [hy]
  dsimp only
  rw [if_neg (lt_irrefl ysi)]

/-- C10 (amended): for every non-empty duty-rate input, a **non-empty**
nomenclature table none of whose numbers is `--` or `0000000000`, and a
4-digit numeric configured year, the primary upload output begins with
exactly the two synthetic placeholder rows — HS Number `--` then
`0000000000`, validity from the configured year's January 1st
(`toString ysi` where `ysi` parses `year ++ "0101"`) to `99991231`, zero
rate values (`"0"`, except that country `BR` blanks the Rate amount
column) — followed by exactly the rows built from the date-filtered real
records.  (An empty nomenclature table instead makes `pd.merge` raise, and
nomenclature records numbered like a placeholder duplicate it, see
`generate_zd14_placeholder_collision`.) -/
theorem generate_zd14_placeholders (dtr : List GenRow) (nom : List NomJoinRow)
    (cfg : AppConfig) (hdtr : dtr ≠ []) (hnom : nom ≠ [])
    (hnum : ∀ nr ∈ nom, nr.number ≠ "--" ∧ nr.number ≠ "0000000000")
    (ysi : ℕ) (hy : pyInt (cfg.year ++ "0101") = some ysi)
    (hylen : cfg.year.data.length = 4) :
    generateZd14 dtr nom cfg =
      some (zd14RowOf cfg ysi (zd14Header1 cfg, none) ::
        zd14RowOf cfg ysi (zd14Header2 cfg, none) ::
        zd14Rows cfg ysi nom (zd14DateFilter cfg dtr)) ∧
      (zd14RowOf cfg ysi (zd14Header1 cfg, none)).hs_number = "--" ∧
      (zd14RowOf cfg ysi (zd14Header2 cfg, none)).hs_number = "0000000000" ∧
      (zd14RowOf cfg ysi (zd14Header1 cfg, none)).date_from = toString ysi ∧
      (zd14RowOf cfg ysi (zd14Header1 cfg, none)).date_to = "99991231" ∧
      (zd14RowOf cfg ysi (zd14Header2 cfg, none)).date_from = toString ysi ∧
      (zd14RowOf cfg ysi (zd14Header2 cfg, none)).date_to = "99991231" ∧
      (zd14RowOf cfg ysi (zd14Header1 cfg, none)).base_rate_pct = "0" ∧
      (zd14RowOf cfg ysi (zd14Header2 cfg, none)).base_rate_pct = "0" ∧
      (zd14RowOf cfg ysi (zd14Header1 cfg, none)).rate_amount =
        (if cfg.country = "BR" then "" else "0") ∧
      (zd14RowOf cfg ysi (zd14Header2 cfg, none)).rate_amount =
        (if cfg.country = "BR" then "" else "0") := by
  have hjoin1 : joinNom nom "--" = [none] := by
    unfold joinNom
    rw [show nom.filter (fun nr => nr.number == "--") = [] from
      List.filter_eq_nil_iff.mpr (fun nr hnr => by
        simp only [beq_iff_eq]
        exact fun hc => (hnum nr hnr).1 (by simpa using hc))]
  have hjoin2 : joinNom nom "0000000000" = [none] := by
    unfold joinNom
    rw [show nom.filter (fun nr => nr.number == "0000000000") = [] from
      List.filter_eq_nil_iff.mpr (fun nr hnr => by
        simp only [beq_iff_eq]
        exact fun hc => (hnum nr hnr).2 (by simpa using hc))]
  refine ⟨?_, rfl, rfl, ?_, ?_, ?_, ?_, rfl, rfl, ?_, ?_⟩
  · unfold generateZd14
    rw [if_neg (by simpa using hdtr), if_neg (by simpa using hnom), hy]
    dsimp only
    congr 1
    unfold zd14Rows
    rw [List.flatMap_cons, List.flatMap_cons, List.map_append, List.map_append]
    have hj1 : joinNom nom (zd14Header1 cfg).hs = [none] := hjoin1
    have hj2 : joinNom nom (zd14Header2 cfg).hs = [none] := hjoin2
    rw [hj1, hj2]
    rfl
  · show formatDateFrom (zd14Header1 cfg).valid_from ysi = toString ysi
    exact formatDateFrom_year_start cfg.year ysi hy hylen
  · have hv : (zd14Header1 cfg).valid_to = "99991231" := rfl
    show formatDateTo (zd14Header1 cfg).valid_to = "99991231"
    rw [hv]
    decide
  · show formatDateFrom (zd14Header2 cfg).valid_from ysi = toString ysi
    exact formatDateFrom_year_start cfg.year ysi hy hylen
  · have hv : (zd14Header2 cfg).valid_to = "99991231" := rfl
    show formatDateTo (zd14Header2 cfg).valid_to = "99991231"
    rw [hv]
    decide
  · show (if cfg.country = "BR" then "" else formatRate (some 0)) = _
    by_cases hbr : cfg.country = "BR"
    · rw [if_pos hbr, if_pos hbr]
    · rw [if_neg hbr, if_neg hbr]
      rfl
  · show (if cfg.country = "BR" then "" else formatRate (some 0)) = _
    by_cases hbr : cfg.country = "BR"
    · rw [if_pos hbr, if_pos hbr]
    · rw [if_neg hbr, if_neg hbr]
      rfl

/-- C10 witness: the amended theorem at the concrete NZ configuration with
one real duty-rate row and one unrelated nomenclature row. -/
theorem generate_zd14_placeholders_witness :
    (([mainGroupRow] : List GenRow) ≠ [] ∧ ([nomFixture] : List NomJoinRow) ≠ [] ∧
        (∀ nr ∈ [nomFixture], nr.number ≠ "--" ∧ nr.number ≠ "0000000000") ∧
        pyInt (cfgNZ.year ++ "0101") = some 20260101 ∧ cfgNZ.year.data.length = 4) ∧
      generateZd14 [mainGroupRow] [nomFixture] cfgNZ =
        some (zd14RowOf cfgNZ 20260101 (zd14Header1 cfgNZ, none) ::
          zd14RowOf cfgNZ 20260101 (zd14Header2 cfgNZ, none) ::
          zd14Rows cfgNZ 20260101 [nomFixture] (zd14DateFilter cfgNZ [mainGroupRow])) :=
  ⟨⟨by decide, by decide, by decide, by decide, by decide⟩,
    (generate_zd14_placeholders [mainGroupRow] [nomFixture] cfgNZ (by decide) (by decide)
      (by decide) 20260101 (by decide) (by decide)).1⟩

end Descartes
